import Mathlib

/-!
The connection handler of atto-http-server (`attos.c`).

A shallow embedding of the request pipeline of `src/attos.c`
(`parse_word`, the `send_*` renderers, `get_mimetype`, `send_file`,
`send_directory_index`, `handle_connection`) and of the argument loop of
`main`, and theorems about them.

Conventions of the embedding

* A C string is the list of its bytes before the terminating NUL.  Raw byte
  buffers (the received request, file contents) are lists that may hold NUL.
* The socket, the filesystem and the C library are the environment.  A run of
  `handle_connection` is the list of calls it makes to them (`Event`): each
  `send`, `stat`, `fopen` and `opendir`, in program order.  Writes to
  stdout/stderr (the log lines) are not recorded.  `send` is taken to transmit
  the whole range it is given.
* A run whose C behaviour is undefined is `none`: a token written past the end
  of `method[16]` or `url[256]`, a read past the end of `buffer[1024]`,
  `resource_name[-1]`, a `NULL` stream or directory handed to
  `fseek`/`readdir`, or the listing cursor moved past `buffer[64000]`.
  The functions named `..._calls` give the calls made before that point.
* The size of the stack (the variable length arrays of `send_file` and
  `handle_connection`) is not modelled.
-/

namespace Attos

/-- A sequence of bytes (C `char`s). -/
abbrev Bytes := List Char

/-- The terminating byte of a C string. -/
def NUL : Char := Char.ofNat 0

/-- `isspace` of `<ctype.h>` in the C locale: space, `\t`, `\n`, `\v`, `\f`, `\r`. -/
def isspace (c : Char) : Bool :=
  c == ' ' || c == Char.ofNat 9 || c == Char.ofNat 10 || c == Char.ofNat 11 ||
    c == Char.ofNat 12 || c == Char.ofNat 13

/-! ## `parse_word` (attos.c 47-54)

`inp` is the memory from the cursor to the end of the zero-initialised buffer;
the end of the list reads as NUL. -/

/-- The loop `while (isspace(*inp)) inp++;`. -/
def skip_spaces : Bytes → Bytes
  | [] => []
  | c :: cs => if isspace c then skip_spaces cs else c :: cs

/-- The loop `while (!isspace(*inp) && *inp) { if (res) *res++ = *inp; inp++; }`:
the bytes copied to `res` and the cursor at which the loop stops. -/
def copy_word : Bytes → Bytes × Bytes
  | [] => ([], [])
  | c :: cs =>
    if !isspace c && c != NUL then ((c :: (copy_word cs).1), (copy_word cs).2)
    else ([], c :: cs)

/-- The value `inp + (*inp != 0)`. -/
def step_over : Bytes → Bytes
  | [] => []
  | c :: cs => if c != NUL then cs else c :: cs

/-- The function `parse_word(inp, res)`: the token stored through `res` and the returned cursor. -/
def parse_word (inp : Bytes) : Bytes × Bytes :=
  ((copy_word (skip_spaces inp)).1, step_over (copy_word (skip_spaces inp)).2)

/-! ## Response texts (attos.c 56-65) -/

def HTTP_VERSION : Bytes := "HTTP/1.1".toList
def STATUS_500 : Bytes := "500 Internal server error".toList
def STATUS_405 : Bytes := "405 Method Not Allowed".toList
def STATUS_403 : Bytes := "403 Forbidden".toList
def STATUS_404 : Bytes := "404 Not Found".toList
def STATUS_200 : Bytes := "200 OK".toList
def STATUS_303 : Bytes := "303 See Other".toList
def STANDARD_HEADERS : Bytes :=
  "Server: Atto Http Server\r\n".toList ++ "Access-Control-Allow-Origin: *\r\n".toList

/-- The two bytes `\r\n`. -/
def CRLF : Bytes := "\r\n".toList

/-! ## The environment -/

/-- One call of the handler to its environment. -/
inductive Event where
  | stat (path : Bytes)
  | fopen (path : Bytes)
  | opendir (path : Bytes)
  | send (data : Bytes)
  deriving DecidableEq, Repr

/-- Result of `stat(path, &st)`: failure with `errno`, or success with `st.st_mode`. -/
inductive StatResult where
  | error (errno : Nat)
  | ok (st_mode : Nat)
  deriving DecidableEq, Repr

/-- The fields of `struct dirent` the handler reads. -/
structure dirent where
  d_name : Bytes
  d_type : Nat
  deriving DecidableEq, Repr

/-- The filesystem as the handler sees it during one request. -/
structure FileSystem where
  /-- The call `stat(path, &st)`. -/
  stat : Bytes → StatResult
  /-- The call `fopen(path, "r")` and the bytes `fread` then delivers; `none` is `NULL`. -/
  fopen : Bytes → Option Bytes
  /-- The call `opendir(path)` and the entries successive `readdir` calls return; `none` is `NULL`. -/
  opendir : Bytes → Option (List dirent)

/-- The globals `base_path` and `show_listing` (attos.c 13-15). -/
structure Config where
  base_path : Bytes
  show_listing : Int

/-- What `recv(client_sock, buffer, sizeof(buffer), 0)` did: its return value and the bytes
it stored at the start of the zero-initialised `buffer` (`ret` of them when `ret > 0`). -/
structure Recv where
  ret : Int
  bytes : Bytes

/-- The `errno` of a missing entity (`<errno.h>`, Linux). -/
def ENOENT : Nat := 2
/-- The mask of the file type bits of `st_mode` (`<sys/stat.h>`, Linux). -/
def S_IFMT : Nat := 0o170000
/-- The file type of a directory. -/
def S_IFDIR : Nat := 0o040000
/-- The file type of a regular file. -/
def S_IFREG : Nat := 0o100000
/-- The `d_type` of a directory (`<dirent.h>`, Linux). -/
def DT_DIR : Nat := 4

/-- The bytes handed to `send`, in order. -/
def sent : List Event → Bytes
  | [] => []
  | Event.send d :: es => d ++ sent es
  | _ :: es => sent es

/-! ## Formatting -/

/-- The text `snprintf(buf, size, ...)` leaves in `buf` when the full output is `out`. -/
def snprintf (size : Nat) (out : Bytes) : Bytes := out.take (size - 1)

/-- The character of one decimal digit. -/
def digit (d : Nat) : Char := Char.ofNat (48 + d)

/-- Decimal digits of `n`, most significant first, in front of `acc`. -/
def utoa : Nat → Nat → Bytes → Bytes
  | 0, _, acc => acc
  | fuel + 1, n, acc =>
    if n < 10 then digit n :: acc else utoa fuel (n / 10) (digit (n % 10) :: acc)

/-- Decimal text of a natural number. -/
def decimal (n : Nat) : Bytes := utoa (n + 1) n []

/-- The `int` that `%d` reads from an argument of type `size_t`: the low 32 bits, signed. -/
def int_of_size_t (n : Nat) : Int :=
  if n % 2 ^ 32 < 2 ^ 31 then ((n % 2 ^ 32 : Nat) : Int) else ((n % 2 ^ 32 : Nat) : Int) - 2 ^ 32

/-- The conversion `%d`. -/
def fmt_d (i : Int) : Bytes :=
  if i < 0 then '-' :: decimal i.natAbs else decimal i.toNat

/-! ## Renderers (attos.c 67-142) -/

/-- The header `send_ok_response` formats. -/
def ok_header (mimetype : Bytes) (data_size : Nat) : Bytes :=
  snprintf 1024
    (HTTP_VERSION ++ " ".toList ++ STATUS_200 ++ CRLF ++ STANDARD_HEADERS ++
      "Content-Type: ".toList ++ mimetype ++ CRLF ++
      "Content-Length: ".toList ++ fmt_d (int_of_size_t data_size) ++ CRLF ++ CRLF)

def send_ok_response (data : Bytes) (data_size : Nat) (mimetype : Bytes) : List Event :=
  [Event.send (ok_header mimetype data_size), Event.send (data.take data_size)]

def send_not_found : List Event :=
  [Event.send (snprintf 1024 (HTTP_VERSION ++ " ".toList ++ STATUS_404 ++ CRLF ++ STANDARD_HEADERS ++ CRLF))]

def send_forbidden : List Event :=
  [Event.send (snprintf 1024 (HTTP_VERSION ++ " ".toList ++ STATUS_403 ++ CRLF ++ STANDARD_HEADERS ++ CRLF))]

def send_method_not_allowed : List Event :=
  [Event.send (snprintf 1024 (HTTP_VERSION ++ " ".toList ++ STATUS_405 ++ CRLF ++ STANDARD_HEADERS ++ CRLF))]

def send_internal_error : List Event :=
  [Event.send (snprintf 1024 (HTTP_VERSION ++ " ".toList ++ STATUS_500 ++ CRLF ++ STANDARD_HEADERS ++ CRLF))]

def send_redirect (url : Bytes) : List Event :=
  [Event.send (snprintf 1024
    (HTTP_VERSION ++ " ".toList ++ STATUS_303 ++ CRLF ++ STANDARD_HEADERS ++
      "Location: ".toList ++ url ++ CRLF))]

def send_html (html : Bytes) : List Event :=
  send_ok_response html html.length "text/html".toList

/-! ## Mimetype table (attos.c 144-173) -/

structure mimetype_def where
  extension : Bytes
  mimetype : Bytes

def known_types : List mimetype_def :=
  [ ⟨"html".toList, "text/html".toList⟩,
    ⟨"css".toList, "text/css".toList⟩,
    ⟨"js".toList, "text/javascript".toList⟩,
    ⟨"png".toList, "image/png".toList⟩,
    ⟨"jpg".toList, "image/jpg".toList⟩,
    ⟨"bmp".toList, "image/bmp".toList⟩ ]

/-- The loop `while (ext_start >= 0 && name[ext_start] != '.') ext_start--;` followed by
`ext_start++`.  The argument `k` is `ext_start + 1`, so `ext_start = -1` is `k = 0`; the
result is the final `ext_start`. -/
def ext_start_from (name : Bytes) : Nat → Nat
  | 0 => 0
  | k + 1 => if name.get? k ≠ some '.' then ext_start_from name k else k + 1

/-- The loop over `known_types` comparing with `strcmp`. -/
def lookup_type (ext : Bytes) : List mimetype_def → Bytes
  | [] => "text/plain".toList
  | d :: ds => if ext = d.extension then d.mimetype else lookup_type ext ds

def get_mimetype (name : Bytes) : Bytes :=
  lookup_type (name.drop (ext_start_from name name.length)) known_types

/-! ## `send_file` (attos.c 175-188) -/

def send_file (fs : FileSystem) (name : Bytes) : Option (List Event) :=
  match fs.fopen name with
  | none => none
  | some data => some (Event.fopen name :: send_ok_response data data.length (get_mimetype name))

/-! ## `send_directory_index` (attos.c 190-244) -/

/-- The local state of `send_directory_index`: the C string in `buffer`, the offset of
`cursor` from `buffer`, and `size_left`. -/
structure IndexBuffer where
  text : Bytes
  cursor : Nat
  size_left : Nat

/-- One `snprintf(cursor, size_left, ...)` producing `out`, then `cursor += bytes_written;
size_left -= bytes_written;`.  Undefined once the cursor leaves the array. -/
def index_write (b : IndexBuffer) (out : Bytes) : Option IndexBuffer :=
  if b.cursor + out.length ≤ 64000 then
    some ⟨b.text ++ out.take (b.size_left - 1), b.cursor + out.length, b.size_left - out.length⟩
  else none

/-- Output of the first format string. -/
def index_head (name : Bytes) : Bytes :=
  "<head><meta charset=\"utf-8\"><meta name=\"viewport\" content=\"width=device-width, initial-scale=1.0\"><title>Index of ".toList
    ++ name ++ "</title></head><body><h1>Index of ".toList ++ name ++ "</h1><ul>".toList

/-- The argument `(entry->d_type == DT_DIR ? '/' : ' ')`. -/
def type_mark (e : dirent) : Char := if e.d_type = DT_DIR then '/' else ' '

/-- Output of the format string of the `readdir` loop. -/
def index_item (e : dirent) : Bytes :=
  "<li><a href=\"./".toList ++ e.d_name ++ [type_mark e] ++ "\">".toList ++
    e.d_name ++ [type_mark e] ++ "</a></li>".toList

/-- The loop `while ((entry = readdir(dir)) != NULL)`. -/
def index_entries : List dirent → IndexBuffer → Option IndexBuffer
  | [], b => some b
  | e :: es, b =>
    match index_write b (index_item e) with
    | none => none
    | some b1 => index_entries es b1

def send_directory_index (fs : FileSystem) (name : Bytes) : Option (List Event) :=
  match index_write ⟨[], 0, 64000⟩ (index_head name) with
  | none => none
  | some b0 =>
    match fs.opendir name with
    | none => none
    | some entries =>
      match index_entries entries b0 with
      | none => none
      | some b1 =>
        match index_write b1 "</ul></body>".toList with
        | none => none
        | some b2 => some (Event.opendir name :: send_html b2.text)

/-! ## `handle_connection` (attos.c 246-333) -/

/-- The token stored in `method`. -/
def request_method (r : Recv) : Bytes := (parse_word r.bytes).1

/-- The token stored in `url`. -/
def request_target (r : Recv) : Bytes := (parse_word (parse_word r.bytes).2).1

/-- The cursor at which the third `parse_word` call stops reading. -/
def version_end (r : Recv) : Bytes :=
  (copy_word (skip_spaces (parse_word (parse_word r.bytes).2).2)).2

/-- The three `parse_word` calls stay inside their arrays: the received bytes are within
`buffer[1024]` and the last read is inside it, the method token leaves the terminator of
`method[16]` in place, the target token that of `url[256]`. -/
def request_fits (r : Recv) : Bool :=
  decide (r.bytes.length ≤ 1024) && (decide (r.bytes.length < 1024) || version_end r != []) &&
    decide ((request_method r).length < 16) && decide ((request_target r).length < 256)

/-- The branch `if (stat(resource_name, &st)) { ... return; }`. -/
def stat_failed (errno : Nat) : List Event :=
  if errno = ENOENT then send_not_found else send_internal_error

/-- The `else` branch of `if (show_listing)`: the `index.html` fallback. -/
def send_index_file (fs : FileSystem) (resource_name : Bytes) : Option (List Event) :=
  match fs.stat (resource_name ++ "index.html".toList) with
  | StatResult.error errno =>
    some (Event.stat (resource_name ++ "index.html".toList) :: stat_failed errno)
  | StatResult.ok _ =>
    (send_file fs (resource_name ++ "index.html".toList)).map
      (fun es => Event.stat (resource_name ++ "index.html".toList) :: es)

/-- The `case S_IFDIR` of the switch. -/
def serve_directory (cfg : Config) (fs : FileSystem) (resource_name : Bytes) :
    Option (List Event) :=
  match resource_name.getLast? with
  | none => none
  | some c =>
    if c ≠ '/' then some (send_redirect (resource_name ++ "/".toList))
    else if cfg.show_listing ≠ 0 then send_directory_index fs resource_name
    else send_index_file fs resource_name

/-- The body of `if (strcmp(method, "GET") == 0)`. -/
def serve_get (cfg : Config) (fs : FileSystem) (url : Bytes) : Option (List Event) :=
  match fs.stat (cfg.base_path ++ url) with
  | StatResult.error errno => some (Event.stat (cfg.base_path ++ url) :: stat_failed errno)
  | StatResult.ok st_mode =>
    (if st_mode &&& S_IFMT = S_IFDIR then serve_directory cfg fs (cfg.base_path ++ url)
     else if st_mode &&& S_IFMT = S_IFREG then send_file fs (cfg.base_path ++ url)
     else some send_forbidden).map (fun es => Event.stat (cfg.base_path ++ url) :: es)

def handle_connection (cfg : Config) (fs : FileSystem) (r : Recv) : Option (List Event) :=
  if r.ret ≤ 0 then some []
  else if !request_fits r then none
  else if request_method r = "GET".toList then serve_get cfg fs (request_target r)
  else some send_method_not_allowed

/-! ## The calls a run makes

The functions of this section follow the same code as `send_file`,
`send_directory_index` and `handle_connection` above and give the calls made up to the
point where the behaviour becomes undefined, the call that returned `NULL` included.  On
a run that stays defined they give the whole run (`handle_connection_calls_eq`). -/

/-- The calls of `send_file`. -/
def send_file_calls (fs : FileSystem) (name : Bytes) : List Event :=
  match fs.fopen name with
  | none => [Event.fopen name]
  | some data => Event.fopen name :: send_ok_response data data.length (get_mimetype name)

/-- The calls of `send_directory_index`. -/
def send_directory_index_calls (fs : FileSystem) (name : Bytes) : List Event :=
  match index_write ⟨[], 0, 64000⟩ (index_head name) with
  | none => []
  | some b0 =>
    match fs.opendir name with
    | none => [Event.opendir name]
    | some entries =>
      match index_entries entries b0 with
      | none => [Event.opendir name]
      | some b1 =>
        match index_write b1 "</ul></body>".toList with
        | none => [Event.opendir name]
        | some b2 => Event.opendir name :: send_html b2.text

/-- The calls of the `index.html` fallback. -/
def send_index_file_calls (fs : FileSystem) (resource_name : Bytes) : List Event :=
  match fs.stat (resource_name ++ "index.html".toList) with
  | StatResult.error errno =>
    Event.stat (resource_name ++ "index.html".toList) :: stat_failed errno
  | StatResult.ok _ =>
    Event.stat (resource_name ++ "index.html".toList) ::
      send_file_calls fs (resource_name ++ "index.html".toList)

/-- The calls of the `case S_IFDIR` of the switch. -/
def serve_directory_calls (cfg : Config) (fs : FileSystem) (resource_name : Bytes) :
    List Event :=
  match resource_name.getLast? with
  | none => []
  | some c =>
    if c ≠ '/' then send_redirect (resource_name ++ "/".toList)
    else if cfg.show_listing ≠ 0 then send_directory_index_calls fs resource_name
    else send_index_file_calls fs resource_name

/-- The calls of the body of `if (strcmp(method, "GET") == 0)`. -/
def serve_get_calls (cfg : Config) (fs : FileSystem) (url : Bytes) : List Event :=
  match fs.stat (cfg.base_path ++ url) with
  | StatResult.error errno => Event.stat (cfg.base_path ++ url) :: stat_failed errno
  | StatResult.ok st_mode =>
    Event.stat (cfg.base_path ++ url) ::
      (if st_mode &&& S_IFMT = S_IFDIR then serve_directory_calls cfg fs (cfg.base_path ++ url)
       else if st_mode &&& S_IFMT = S_IFREG then send_file_calls fs (cfg.base_path ++ url)
       else send_forbidden)

/-- The calls of `handle_connection`; none is recorded for a request that does not fit
the arrays, whose parse is already undefined. -/
def handle_connection_calls (cfg : Config) (fs : FileSystem) (r : Recv) : List Event :=
  if r.ret ≤ 0 then []
  else if !request_fits r then []
  else if request_method r = "GET".toList then serve_get_calls cfg fs (request_target r)
  else send_method_not_allowed

/-! ## `main`: the command line (attos.c 13-28, 335-365) -/

/-- The globals `base_path`, `port` and `show_listing`. -/
structure Globals where
  base_path : Bytes
  port : Int
  show_listing : Int
  deriving DecidableEq, Repr

/-- Their initial values (attos.c 13-15). -/
def default_globals : Globals := ⟨".".toList, 8080, 1⟩

/-- How the argument loop of `main` ends: with `exit(status)`, or by running out of
arguments, after which `main` goes on to create the socket with the globals as set. -/
inductive ArgsResult where
  | exit (status : Int)
  | serve (g : Globals)
  deriving DecidableEq, Repr

/-- The digits read by `atoi`. -/
def atoi_digits : Bytes → Int → Int
  | [], acc => acc
  | c :: cs, acc =>
    if 48 ≤ c.toNat ∧ c.toNat ≤ 57 then atoi_digits cs (10 * acc + ((c.toNat - 48 : Nat) : Int))
    else acc

/-- The function `atoi` of `<stdlib.h>` on values that fit an `int`: leading whitespace, an
optional sign, then digits. -/
def atoi (s : Bytes) : Int :=
  match skip_spaces s with
  | '-' :: cs => - atoi_digits cs 0
  | '+' :: cs => atoi_digits cs 0
  | cs => atoi_digits cs 0

/-- The loop `while (argc)` of `main`: the arguments left and the globals so far. -/
def parse_flags : List Bytes → Globals → ArgsResult
  | [], g => ArgsResult.serve g
  | arg :: rest, g =>
    if arg.head? = some '-' then
      if arg = "-h".toList ∨ arg = "-?".toList ∨ arg = "--help".toList then ArgsResult.exit 0
      else if arg = "-p".toList ∨ arg = "--port".toList then
        match rest with
        | [] => ArgsResult.exit 0
        | port_s :: rest1 => parse_flags rest1 { g with port := atoi port_s }
      else if arg = "-L".toList ∨ arg = "--no-listing".toList then
        parse_flags rest { g with show_listing := 0 }
      else ArgsResult.exit 1
    else parse_flags rest { g with base_path := arg }

/-- The function `main` up to the end of the argument loop; `shift_arg` exits with 1 when
there is no `argv[0]`. -/
def main (argv : List Bytes) : ArgsResult :=
  match argv with
  | [] => ArgsResult.exit 1
  | _ :: args => parse_flags args default_globals

/-! ## Reading a response -/

/-- The six status texts of attos.c 57-62. -/
def status_texts : List Bytes :=
  [STATUS_200, STATUS_303, STATUS_403, STATUS_404, STATUS_405, STATUS_500]

/-- The message starts with `HTTP/1.1 `, one of the six status texts, CRLF and the two
base headers. -/
def begins_with_status (msg : Bytes) : Prop :=
  ∃ status ∈ status_texts,
    (HTTP_VERSION ++ " ".toList ++ status ++ CRLF ++ STANDARD_HEADERS) <+: msg

/-- The message is a status line, header lines each ended by CRLF, an empty line, and a body. -/
def is_framed (msg : Bytes) : Prop :=
  ∃ (status : Bytes) (headers : List Bytes) (body : Bytes),
    msg = HTTP_VERSION ++ " ".toList ++ status ++ CRLF ++
      (headers.map (fun h => h ++ CRLF)).flatten ++ CRLF ++ body

/-- The C string held by a buffer: its bytes before the first NUL. -/
def c_string (buf : Bytes) : Bytes := buf.takeWhile (fun c => c != NUL)

/-- The first whitespace-delimited token of a text: its first maximal run of bytes that
are not whitespace. -/
def first_token (s : Bytes) : Bytes :=
  (s.dropWhile isspace).takeWhile (fun c => !isspace c)

/-- What follows the first whitespace-delimited token of a text. -/
def rest_after_token (s : Bytes) : Bytes :=
  (s.dropWhile isspace).dropWhile (fun c => !isspace c)

/-- The status code of a message: the three bytes after `HTTP/1.1 `. -/
def status_code (msg : Bytes) : Bytes := (msg.drop 9).take 3

/-- The text after the last `.` of a name, and the whole name when it has no `.`. -/
def last_suffix (name : Bytes) : Bytes :=
  (name.reverse.takeWhile (fun c => c != '.')).reverse

/-- The Mimetype Table read as a map: the type of the first entry whose extension is the
given text, and `text/plain` when there is none. -/
def table_type (ext : Bytes) : Bytes :=
  ((known_types.find? (fun d => d.extension == ext)).map (fun d => d.mimetype)).getD
    "text/plain".toList

/-- Value of a decimal numeral. -/
def decimal_value (s : Bytes) : Nat :=
  s.foldl (fun acc c => 10 * acc + (c.toNat - 48)) 0

/-- The item the listing shows for one directory entry: a hyperlink whose target and label
are the entry name followed by `/` for a directory and by a blank otherwise. -/
def listed_item (e : dirent) : Bytes :=
  "<li><a href=\"./".toList ++ e.d_name ++ (if e.d_type = DT_DIR then ['/'] else [' ']) ++
    "\">".toList ++ e.d_name ++ (if e.d_type = DT_DIR then ['/'] else [' ']) ++
    "</a></li>".toList

/-- The index page: the heading naming the directory, one item per entry in the order of
the enumeration, and the closing tags. -/
def listing_page (name : Bytes) (entries : List dirent) : Bytes :=
  "<head><meta charset=\"utf-8\"><meta name=\"viewport\" content=\"width=device-width, initial-scale=1.0\"><title>Index of ".toList
    ++ name ++ "</title></head><body><h1>Index of ".toList ++ name ++ "</h1><ul>".toList
    ++ (entries.map listed_item).flatten ++ "</ul></body>".toList

/-- The forms a response of the handler takes: the four error texts, the redirect with
some `Location`, and the 200 header for some type followed by a body whose length the
header was formatted from. -/
def response_shape (msg : Bytes) : Prop :=
  msg = "HTTP/1.1 404 Not Found\r\nServer: Atto Http Server\r\nAccess-Control-Allow-Origin: *\r\n\r\n".toList ∨
  msg = "HTTP/1.1 403 Forbidden\r\nServer: Atto Http Server\r\nAccess-Control-Allow-Origin: *\r\n\r\n".toList ∨
  msg = "HTTP/1.1 405 Method Not Allowed\r\nServer: Atto Http Server\r\nAccess-Control-Allow-Origin: *\r\n\r\n".toList ∨
  msg = "HTTP/1.1 500 Internal server error\r\nServer: Atto Http Server\r\nAccess-Control-Allow-Origin: *\r\n\r\n".toList ∨
  (∃ url : Bytes, msg = snprintf 1024
    ("HTTP/1.1 303 See Other\r\nServer: Atto Http Server\r\nAccess-Control-Allow-Origin: *\r\nLocation: ".toList
      ++ url ++ "\r\n".toList)) ∨
  (∃ mimetype body : Bytes, mimetype.length ≤ 15 ∧ msg =
    "HTTP/1.1 200 OK\r\nServer: Atto Http Server\r\nAccess-Control-Allow-Origin: *\r\nContent-Type: ".toList
      ++ mimetype ++ "\r\nContent-Length: ".toList ++ fmt_d (int_of_size_t body.length)
      ++ "\r\n\r\n".toList ++ body)

/-! ## Sample inputs -/

/-- A received request made of the given text. -/
def request (s : String) : Recv := ⟨(s.length : Nat), s.toList⟩

/-- Base path `/srv`, listing enabled. -/
def srv : Config := ⟨"/srv".toList, 1⟩

/-- Base path `/srv`, listing disabled (`-L`). -/
def srv_no_listing : Config := ⟨"/srv".toList, 0⟩

/-- A tree under `/srv`: the file `a.txt` holding `hi`, the empty directory `sub`, the
directory `pub` holding `a.txt` and the directory `img`, the directory `site` holding a
regular `index.html`, `locked`, whose metadata cannot be read (`EACCES`), and the regular
file `secret.txt`, which the server may not open (`fopen` returns `NULL`). -/
def srv_fs : FileSystem where
  stat := fun p =>
    if p = "/srv/a.txt".toList ∨ p = "/srv/site/index.html".toList then StatResult.ok 0o100644
    else if p = "/srv/secret.txt".toList then StatResult.ok 0o100600
    else if p = "/srv/sub".toList ∨ p = "/srv/sub/".toList ∨ p = "/srv/pub/".toList
        ∨ p = "/srv/site/".toList then StatResult.ok 0o040755
    else if p = "/srv/locked".toList then StatResult.error 13
    else StatResult.error ENOENT
  fopen := fun p =>
    if p = "/srv/a.txt".toList then some "hi".toList
    else if p = "/srv/site/index.html".toList then some "<p>home</p>".toList
    else none
  opendir := fun p =>
    if p = "/srv/sub/".toList then some [⟨".".toList, 4⟩, ⟨"..".toList, 4⟩]
    else if p = "/srv/pub/".toList then
      some [⟨".".toList, 4⟩, ⟨"img".toList, 4⟩, ⟨"..".toList, 4⟩, ⟨"a.txt".toList, 8⟩]
    else none

/-- A tree under `/srv` whose directory `box` holds an `index.html` that is a character
device reading as empty (such as a link to `/dev/null`). -/
def box_fs : FileSystem where
  stat := fun p =>
    if p = "/srv/box/".toList then StatResult.ok 0o040755
    else if p = "/srv/box/index.html".toList then StatResult.ok 0o020666
    else StatResult.error ENOENT
  fopen := fun p => if p = "/srv/box/index.html".toList then some [] else none
  opendir := fun _ => none

/-- The contents of a file of 2 GiB. -/
def big_file : Bytes := List.replicate (2 ^ 31) 'a'

/-- A tree under `/srv` holding the regular file `big.bin` of 2 GiB. -/
def big_fs : FileSystem where
  stat := fun p =>
    if p = "/srv/big.bin".toList then StatResult.ok 0o100644 else StatResult.error ENOENT
  fopen := fun p => if p = "/srv/big.bin".toList then some big_file else none
  opendir := fun _ => none

/-- A request line with the given method and target. -/
def request_line (method target : Bytes) : Recv :=
  ⟨((method ++ ' ' :: target ++ " HTTP/1.1\r\n\r\n".toList).length : Nat),
    method ++ ' ' :: target ++ " HTTP/1.1\r\n\r\n".toList⟩

/-- A directory path of 403 bytes, made of two names of 200 bytes. -/
def long_dir : Bytes := '/' :: List.replicate 200 'a' ++ '/' :: List.replicate 200 'b' ++ ['/']

/-- A tree under `/srv` with the directory `long_dir`, which holds the regular file
`c.txt` with the contents `hi` and the character device `tty`. -/
def deep_fs : FileSystem where
  stat := fun p =>
    if p = "/srv".toList ++ long_dir then StatResult.ok 0o040755
    else if p = "/srv".toList ++ long_dir ++ "c.txt".toList then StatResult.ok 0o100644
    else if p = "/srv".toList ++ long_dir ++ "tty".toList then StatResult.ok 0o020666
    else StatResult.error ENOENT
  fopen := fun p =>
    if p = "/srv".toList ++ long_dir ++ "c.txt".toList then some "hi".toList else none
  opendir := fun p =>
    if p = "/srv".toList ++ long_dir then
      some [⟨".".toList, 4⟩, ⟨"..".toList, 4⟩, ⟨"c.txt".toList, 8⟩, ⟨"tty".toList, 2⟩]
    else none

/-- A tree under `/srv` with the directory `private`, which the server may not read
(`opendir` returns `NULL`). -/
def private_fs : FileSystem where
  stat := fun p =>
    if p = "/srv/private/".toList then StatResult.ok 0o040311 else StatResult.error ENOENT
  fopen := fun _ => none
  opendir := fun _ => none

/-- The empty base path, listing enabled. -/
def cwd : Config := ⟨[], 1⟩

/-- A working directory that holds the regular file `html`. -/
def cwd_fs : FileSystem where
  stat := fun p => if p = "html".toList then StatResult.ok 0o100644 else StatResult.error ENOENT
  fopen := fun p => if p = "html".toList then some "<p>x</p>".toList else none
  opendir := fun _ => none

/-! # Theorems -/

/-! ## Fixed responses and dispatch -/

/-- `snprintf` stores the whole output when it is shorter than the array. -/
theorem snprintf_short (size : Nat) (out : Bytes) (h : out.length < size) :
    snprintf size out = out := by
  unfold snprintf
  exact List.take_of_length_le (by omega)

/-- The bytes of the 404 response. -/
theorem send_not_found_eq : send_not_found =
    [Event.send "HTTP/1.1 404 Not Found\r\nServer: Atto Http Server\r\nAccess-Control-Allow-Origin: *\r\n\r\n".toList] := by
  decide

/-- The bytes of the 403 response. -/
theorem send_forbidden_eq : send_forbidden =
    [Event.send "HTTP/1.1 403 Forbidden\r\nServer: Atto Http Server\r\nAccess-Control-Allow-Origin: *\r\n\r\n".toList] := by
  decide

/-- The bytes of the 405 response. -/
theorem send_method_not_allowed_eq : send_method_not_allowed =
    [Event.send "HTTP/1.1 405 Method Not Allowed\r\nServer: Atto Http Server\r\nAccess-Control-Allow-Origin: *\r\n\r\n".toList] := by
  decide

/-- The bytes of the 500 response. -/
theorem send_internal_error_eq : send_internal_error =
    [Event.send "HTTP/1.1 500 Internal server error\r\nServer: Atto Http Server\r\nAccess-Control-Allow-Origin: *\r\n\r\n".toList] := by
  decide

/-- A received request that fits and whose method is `GET` goes to the `GET` branch. -/
theorem handle_connection_get (cfg : Config) (fs : FileSystem) (r : Recv)
    (hrecv : 0 < r.ret) (hfit : request_fits r = true)
    (hget : request_method r = "GET".toList) :
    handle_connection cfg fs r = serve_get cfg fs (request_target r) := by
  unfold handle_connection
  rw [if_neg (not_le.mpr hrecv), hfit, if_pos hget]
  rfl

/-- A received request that fits and whose method is not `GET` goes to the `else` branch. -/
theorem handle_connection_other (cfg : Config) (fs : FileSystem) (r : Recv)
    (hrecv : 0 < r.ret) (hfit : request_fits r = true)
    (hmethod : request_method r ≠ "GET".toList) :
    handle_connection cfg fs r = some send_method_not_allowed := by
  unfold handle_connection
  rw [if_neg (not_le.mpr hrecv), hfit, if_neg hmethod]
  rfl

/-! ## The method token -/

/-- The first loop of `parse_word` drops the leading whitespace. -/
theorem skip_spaces_eq (inp : Bytes) : skip_spaces inp = inp.dropWhile isspace := by
  induction inp with
  | nil => rfl
  | cons c cs ih =>
    unfold skip_spaces
    by_cases h : isspace c = true
    · simp [h, ih, List.dropWhile_cons]
    · simp [h, List.dropWhile_cons]

/-- The second loop of `parse_word` copies the bytes before the first whitespace or NUL. -/
theorem copy_word_fst (inp : Bytes) :
    (copy_word inp).1 = inp.takeWhile (fun c => !isspace c && c != NUL) := by
  induction inp with
  | nil => rfl
  | cons c cs ih =>
    unfold copy_word
    by_cases h : (!isspace c && c != NUL) = true
    · rw [if_pos h, List.takeWhile_cons, h]
      simp [ih]
    · rw [if_neg h, List.takeWhile_cons]
      simp only [Bool.not_eq_true] at h
      rw [h]
      rfl

/-- NUL is not whitespace. -/
theorem isspace_NUL : isspace NUL = false := by decide

/-- The first token of a C string, read off the buffer that holds it. -/
theorem first_token_c_string (inp : Bytes) :
    first_token (c_string inp) =
      (inp.dropWhile isspace).takeWhile (fun c => !isspace c && c != NUL) := by
  unfold first_token c_string
  induction inp with
  | nil => rfl
  | cons c cs ih =>
    by_cases hn : c = NUL
    · subst hn
      simp [List.takeWhile_cons, List.dropWhile_cons, isspace_NUL]
    · have hn2 : (c != NUL) = true := by simpa using hn
      by_cases hs : isspace c = true
      · simp only [List.takeWhile_cons, hn2, List.dropWhile_cons, hs, if_true]
        exact ih
      · simp only [Bool.not_eq_true] at hs
        simp only [List.takeWhile_cons, hn2, List.dropWhile_cons, hs, if_true, Bool.false_eq_true,
          if_false, Bool.not_false, Bool.true_and, Bool.and_self]
        congr 1
        clear ih
        induction cs with
        | nil => rfl
        | cons d ds ih2 =>
          by_cases hd : d = NUL
          · subst hd
            simp [List.takeWhile_cons, isspace_NUL]
          · have hd2 : (d != NUL) = true := by simpa using hd
            simp only [List.takeWhile_cons, hd2, if_true, Bool.and_true]
            split
            · rw [ih2]
            · rfl

/-- The token `parse_word` stores is the first whitespace-delimited token of the C string
at the cursor. -/
theorem parse_word_fst (inp : Bytes) : (parse_word inp).1 = first_token (c_string inp) := by
  unfold parse_word
  rw [copy_word_fst, skip_spaces_eq, first_token_c_string]

/-- The method token is the first whitespace-delimited token of the received C string. -/
theorem request_method_eq (r : Recv) : request_method r = first_token (c_string r.bytes) :=
  parse_word_fst r.bytes

/-- C3 (amended): for every received request that fits the arrays of the handler (method
shorter than 16 bytes, target shorter than 256 bytes, the three tokens read inside
`buffer[1024]`) and whose first whitespace-delimited token is not exactly `GET`, whatever
the target and the filesystem, the run of
`handle_connection` is the single call `send` of the 405 response, which ends at its blank
line: no `stat`, `fopen` or `opendir` is made and nothing follows the headers. -/
theorem method_other_than_get_405 (cfg : Config) (fs : FileSystem) (r : Recv)
    (hrecv : 0 < r.ret) (hfit : request_fits r = true)
    (hmethod : first_token (c_string r.bytes) ≠ "GET".toList) :
    handle_connection cfg fs r = some [Event.send
      "HTTP/1.1 405 Method Not Allowed\r\nServer: Atto Http Server\r\nAccess-Control-Allow-Origin: *\r\n\r\n".toList] := by
  rw [handle_connection_other cfg fs r hrecv hfit (by rw [request_method_eq]; exact hmethod),
    send_method_not_allowed_eq]

/-- The request `POST /a.txt` is answered by the 405. -/
theorem method_other_than_get_405_witness :
    handle_connection srv srv_fs (request "POST /a.txt HTTP/1.1\r\n\r\n") = some [Event.send
      "HTTP/1.1 405 Method Not Allowed\r\nServer: Atto Http Server\r\nAccess-Control-Allow-Origin: *\r\n\r\n".toList] :=
  method_other_than_get_405 srv srv_fs (request "POST /a.txt HTTP/1.1\r\n\r\n")
    (by decide) (by decide) (by decide)

/-- C4 (amended): for every `GET` request that fits the arrays of the handler (target
shorter than 256 bytes, the three tokens read inside `buffer[1024]`) and for which `stat`
of `base_path` followed by the target fails with `errno`, the run is that `stat` and one `send`: of the
404 response, ending at its blank line, when `errno` is `ENOENT`, and of the 500 response,
ending at its blank line, for every other `errno`. -/
theorem stat_failure_404_or_500 (cfg : Config) (fs : FileSystem) (r : Recv) (errno : Nat)
    (hrecv : 0 < r.ret) (hfit : request_fits r = true)
    (hget : request_method r = "GET".toList)
    (hstat : fs.stat (cfg.base_path ++ request_target r) = StatResult.error errno) :
    (errno = ENOENT → handle_connection cfg fs r =
      some [Event.stat (cfg.base_path ++ request_target r), Event.send
        "HTTP/1.1 404 Not Found\r\nServer: Atto Http Server\r\nAccess-Control-Allow-Origin: *\r\n\r\n".toList]) ∧
    (errno ≠ ENOENT → handle_connection cfg fs r =
      some [Event.stat (cfg.base_path ++ request_target r), Event.send
        "HTTP/1.1 500 Internal server error\r\nServer: Atto Http Server\r\nAccess-Control-Allow-Origin: *\r\n\r\n".toList]) := by
  rw [handle_connection_get cfg fs r hrecv hfit hget]
  unfold serve_get
  rw [hstat]
  constructor
  · intro h
    simp [stat_failed, h, send_not_found_eq]
  · intro h
    simp [stat_failed, h, send_internal_error_eq]

/-- The request `GET /locked`, whose `stat` fails with `EACCES`, is answered by the 500. -/
theorem stat_failure_404_or_500_witness :
    (13 = ENOENT → handle_connection srv srv_fs (request "GET /locked HTTP/1.1\r\n\r\n") =
      some [Event.stat (srv.base_path ++ request_target (request "GET /locked HTTP/1.1\r\n\r\n")), Event.send
        "HTTP/1.1 404 Not Found\r\nServer: Atto Http Server\r\nAccess-Control-Allow-Origin: *\r\n\r\n".toList]) ∧
    (13 ≠ ENOENT → handle_connection srv srv_fs (request "GET /locked HTTP/1.1\r\n\r\n") =
      some [Event.stat (srv.base_path ++ request_target (request "GET /locked HTTP/1.1\r\n\r\n")), Event.send
        "HTTP/1.1 500 Internal server error\r\nServer: Atto Http Server\r\nAccess-Control-Allow-Origin: *\r\n\r\n".toList]) :=
  stat_failure_404_or_500 srv srv_fs (request "GET /locked HTTP/1.1\r\n\r\n") 13
    (by decide) (by decide) (by decide) (by decide)

/-! ## The 200 header -/

/-- A number below `10 ^ e` adds at most `e` digits. -/
theorem utoa_length_le (fuel : Nat) : ∀ (n : Nat) (acc : Bytes) (e : Nat), 0 < e → n < 10 ^ e →
    (utoa fuel n acc).length ≤ acc.length + e := by
  induction fuel with
  | zero => intro n acc e _ _; simp [utoa]
  | succ f ih =>
    intro n acc e he hn
    unfold utoa
    split
    · simp; omega
    · rename_i h10
      have he2 : 2 ≤ e := by
        by_contra hlt
        have : e = 1 := by omega
        subst this
        simp at hn
        omega
      have hdiv : n / 10 < 10 ^ (e - 1) := by
        rw [Nat.div_lt_iff_lt_mul (by norm_num)]
        calc n < 10 ^ e := hn
          _ = 10 ^ (e - 1 + 1) := by congr 1; omega
          _ = 10 ^ (e - 1) * 10 := by rw [pow_succ]
      have := ih (n / 10) (digit (n % 10) :: acc) (e - 1) (by omega) hdiv
      simp at this
      omega

/-- A number below `10 ^ e` has at most `e` digits. -/
theorem decimal_length_le (n e : Nat) (he : 0 < e) (hn : n < 10 ^ e) :
    (decimal n).length ≤ e := by
  have := utoa_length_le (n + 1) n [] e he hn
  simpa [decimal] using this

/-- The value `%d` reads is a 32-bit `int`. -/
theorem int_of_size_t_range (n : Nat) :
    -(2 : Int) ^ 31 ≤ int_of_size_t n ∧ int_of_size_t n < 2 ^ 31 := by
  have hm : n % 2 ^ 32 < 2 ^ 32 := Nat.mod_lt _ (by norm_num)
  unfold int_of_size_t
  split <;> constructor <;> omega

/-- A 32-bit `int` prints in at most 11 characters. -/
theorem fmt_d_int_length_le (i : Int) (hlo : -(2 : Int) ^ 31 ≤ i) (hhi : i < 2 ^ 31) :
    (fmt_d i).length ≤ 11 := by
  unfold fmt_d
  split
  · have := decimal_length_le i.natAbs 10 (by norm_num) (by omega)
    simp only [List.length_cons]
    omega
  · have := decimal_length_le i.toNat 10 (by norm_num) (by omega)
    omega

/-- The text `%d` prints for a `size_t` has at most 11 characters. -/
theorem fmt_d_length_le (n : Nat) : (fmt_d (int_of_size_t n)).length ≤ 11 :=
  fmt_d_int_length_le _ (int_of_size_t_range n).1 (int_of_size_t_range n).2

/-- Below `2 ^ 31` the text `%d` prints for a `size_t` is its decimal numeral. -/
theorem fmt_d_small (n : Nat) (h : n < 2 ^ 31) : fmt_d (int_of_size_t n) = decimal n := by
  have hm : n % 2 ^ 32 = n := Nat.mod_eq_of_lt (by omega)
  unfold fmt_d int_of_size_t
  rw [hm, if_pos h, if_neg (by omega)]
  simp

/-- The 200 header is never truncated by `header[1024]`. -/
theorem ok_header_eq (mimetype : Bytes) (data_size : Nat) (hm : mimetype.length ≤ 900) :
    ok_header mimetype data_size =
      "HTTP/1.1 200 OK\r\nServer: Atto Http Server\r\nAccess-Control-Allow-Origin: *\r\nContent-Type: ".toList
        ++ mimetype ++ "\r\nContent-Length: ".toList ++ fmt_d (int_of_size_t data_size)
        ++ "\r\n\r\n".toList := by
  have hd := fmt_d_length_le data_size
  unfold ok_header
  rw [snprintf_short]
  · simp [HTTP_VERSION, STATUS_200, CRLF, STANDARD_HEADERS]
  · simp [HTTP_VERSION, STATUS_200, CRLF, STANDARD_HEADERS]
    omega

/-! ## The mimetype lookup -/

/-- The scan for the last `.` never moves forward. -/
theorem ext_start_from_le (name : Bytes) : ∀ k, ext_start_from name k ≤ k := by
  intro k
  induction k with
  | zero => simp [ext_start_from]
  | succ k ih =>
    unfold ext_start_from
    split <;> omega

/-- The scan for the last `.` only reads below its starting index. -/
theorem ext_start_from_append (l m : Bytes) : ∀ k, k ≤ l.length →
    ext_start_from (l ++ m) k = ext_start_from l k := by
  intro k
  induction k with
  | zero => intro _; simp [ext_start_from]
  | succ k ih =>
    intro hk
    unfold ext_start_from
    have hget : (l ++ m).get? k = l.get? k := by
      simp only [List.get?_eq_getElem?]
      exact List.getElem?_append_left (by omega)
    rw [hget, ih (by omega)]

/-- The text `&name[ext_start]` compared with the table is the text after the last `.`. -/
theorem drop_ext_start (name : Bytes) :
    name.drop (ext_start_from name name.length) = last_suffix name := by
  induction name using List.reverseRecOn with
  | nil => simp [ext_start_from, last_suffix]
  | append_singleton l c ih =>
    have hlen : (l ++ [c]).length = l.length + 1 := by simp
    rw [hlen]
    unfold ext_start_from
    have hget : (l ++ [c]).get? l.length = some c := by
      simp [List.get?_eq_getElem?]
    rw [hget]
    by_cases hc : c = '.'
    · subst hc
      simp [last_suffix]
    · have hne : (some c : Option Char) ≠ some '.' := by simpa using hc
      rw [if_pos hne, ext_start_from_append l [c] l.length (le_refl _)]
      rw [List.drop_append_of_le_length (ext_start_from_le l l.length), ih]
      simp [last_suffix, hc]

/-- The `strcmp` loop returns the type of the first entry with an equal extension. -/
theorem lookup_type_eq (ext : Bytes) : ∀ ds : List mimetype_def,
    lookup_type ext ds =
      ((ds.find? (fun d => d.extension == ext)).map (fun d => d.mimetype)).getD
        "text/plain".toList := by
  intro ds
  induction ds with
  | nil => simp [lookup_type]
  | cons d ds ih =>
    unfold lookup_type
    by_cases h : ext = d.extension
    · simp [h]
    · have h2 : (d.extension == ext) = false := by
        simp only [beq_eq_false_iff_ne, ne_eq]
        exact fun e => h e.symm
      rw [if_neg h, ih, List.find?_cons, h2]

/-- The function `get_mimetype` is the table lookup of the text after the last `.`. -/
theorem get_mimetype_eq (name : Bytes) : get_mimetype name = table_type (last_suffix name) := by
  unfold get_mimetype table_type
  rw [drop_ext_start, lookup_type_eq]

/-- Every type `get_mimetype` returns has at most 15 characters. -/
theorem get_mimetype_length_le (name : Bytes) : (get_mimetype name).length ≤ 15 := by
  unfold get_mimetype
  generalize name.drop (ext_start_from name name.length) = ext
  simp only [known_types, lookup_type]
  split_ifs <;> decide

/-! ## Regular files and the redirect -/

/-- The two file type codes differ. -/
theorem S_IFREG_ne_S_IFDIR : S_IFREG ≠ S_IFDIR := by decide

/-- The run of `send_file` on a file that opens. -/
theorem send_file_eq (fs : FileSystem) (name contents : Bytes)
    (hopen : fs.fopen name = some contents) :
    send_file fs name = some [Event.fopen name,
      Event.send ("HTTP/1.1 200 OK\r\nServer: Atto Http Server\r\nAccess-Control-Allow-Origin: *\r\nContent-Type: ".toList
        ++ get_mimetype name ++ "\r\nContent-Length: ".toList
        ++ fmt_d (int_of_size_t contents.length) ++ "\r\n\r\n".toList),
      Event.send contents] := by
  unfold send_file
  rw [hopen]
  simp only [send_ok_response, List.take_length]
  rw [ok_header_eq _ _ (le_trans (get_mimetype_length_le name) (by norm_num))]

/-- The `case S_IFREG` of the switch. -/
theorem serve_get_regular (cfg : Config) (fs : FileSystem) (url : Bytes) (st_mode : Nat)
    (hstat : fs.stat (cfg.base_path ++ url) = StatResult.ok st_mode)
    (hreg : st_mode &&& S_IFMT = S_IFREG) :
    serve_get cfg fs url = (send_file fs (cfg.base_path ++ url)).map
      (fun es => Event.stat (cfg.base_path ++ url) :: es) := by
  unfold serve_get
  rw [hstat]
  simp only [hreg, if_neg S_IFREG_ne_S_IFDIR, if_true]

/-- C2 (amended): for every `GET` request that fits the arrays of the handler (target
shorter than 256 bytes, the three tokens read inside `buffer[1024]`) for which `stat` of
`base_path` followed by the target reports a regular file that `fopen` opens, the run is
`stat`, `fopen`, a `send` of the 200 header and a `send` of exactly the contents that
`fread` delivers; the `Content-Type` of the header is the Mimetype Table entry for the
text after the last `.` of the resolved path, the whole path when it holds no `.`
(`last_suffix`), and `text/plain` when no entry has that text as its extension. -/
theorem regular_file_200 (cfg : Config) (fs : FileSystem) (r : Recv) (st_mode : Nat)
    (contents : Bytes)
    (hrecv : 0 < r.ret) (hfit : request_fits r = true)
    (hget : request_method r = "GET".toList)
    (hstat : fs.stat (cfg.base_path ++ request_target r) = StatResult.ok st_mode)
    (hreg : st_mode &&& S_IFMT = S_IFREG)
    (hopen : fs.fopen (cfg.base_path ++ request_target r) = some contents) :
    handle_connection cfg fs r = some [
      Event.stat (cfg.base_path ++ request_target r),
      Event.fopen (cfg.base_path ++ request_target r),
      Event.send ("HTTP/1.1 200 OK\r\nServer: Atto Http Server\r\nAccess-Control-Allow-Origin: *\r\nContent-Type: ".toList
        ++ table_type (last_suffix (cfg.base_path ++ request_target r))
        ++ "\r\nContent-Length: ".toList
        ++ fmt_d (int_of_size_t contents.length) ++ "\r\n\r\n".toList),
      Event.send contents] := by
  rw [handle_connection_get cfg fs r hrecv hfit hget,
    serve_get_regular cfg fs _ st_mode hstat hreg, send_file_eq fs _ contents hopen,
    get_mimetype_eq]
  rfl

/-- The request `GET /a.txt` is answered by the 200 carrying the two bytes of the file. -/
theorem regular_file_200_witness :
    handle_connection srv srv_fs (request "GET /a.txt HTTP/1.1\r\n\r\n") = some [
      Event.stat (srv.base_path ++ request_target (request "GET /a.txt HTTP/1.1\r\n\r\n")),
      Event.fopen (srv.base_path ++ request_target (request "GET /a.txt HTTP/1.1\r\n\r\n")),
      Event.send ("HTTP/1.1 200 OK\r\nServer: Atto Http Server\r\nAccess-Control-Allow-Origin: *\r\nContent-Type: ".toList
        ++ table_type (last_suffix (srv.base_path ++ request_target (request "GET /a.txt HTTP/1.1\r\n\r\n")))
        ++ "\r\nContent-Length: ".toList
        ++ fmt_d (int_of_size_t "hi".toList.length) ++ "\r\n\r\n".toList),
      Event.send "hi".toList] :=
  regular_file_200 srv srv_fs (request "GET /a.txt HTTP/1.1\r\n\r\n") 0o100644 "hi".toList
    (by decide) (by decide) (by decide) (by decide) (by decide) (by decide)

/-- The redirect branch of `case S_IFDIR`. -/
theorem serve_get_redirect (cfg : Config) (fs : FileSystem) (url : Bytes) (st_mode : Nat)
    (c : Char)
    (hstat : fs.stat (cfg.base_path ++ url) = StatResult.ok st_mode)
    (hdir : st_mode &&& S_IFMT = S_IFDIR)
    (hlast : (cfg.base_path ++ url).getLast? = some c) (hc : c ≠ '/') :
    serve_get cfg fs url = some [Event.stat (cfg.base_path ++ url),
      Event.send (snprintf 1024
        ("HTTP/1.1 303 See Other\r\nServer: Atto Http Server\r\nAccess-Control-Allow-Origin: *\r\nLocation: ".toList
          ++ (cfg.base_path ++ url ++ "/".toList) ++ "\r\n".toList))] := by
  unfold serve_get
  rw [hstat]
  simp only [hdir, if_true, serve_directory, hlast]
  rw [if_pos hc]
  simp [send_redirect, HTTP_VERSION, STATUS_303, CRLF, STANDARD_HEADERS]

/-- C1: evaluation at base path `/srv`, target `/sub`, a directory: with listing enabled
and with listing disabled the response is the 303, and its `Location` is the resolved
filesystem path `/srv/sub/`, not the request target followed by `/` (`/sub/`). -/
theorem redirect_location_is_filesystem_path :
    request_target (request "GET /sub HTTP/1.1\r\n\r\n") = "/sub".toList ∧
    handle_connection srv srv_fs (request "GET /sub HTTP/1.1\r\n\r\n") =
      some [Event.stat "/srv/sub".toList, Event.send
        "HTTP/1.1 303 See Other\r\nServer: Atto Http Server\r\nAccess-Control-Allow-Origin: *\r\nLocation: /srv/sub/\r\n".toList] ∧
    handle_connection srv_no_listing srv_fs (request "GET /sub HTTP/1.1\r\n\r\n") =
      some [Event.stat "/srv/sub".toList, Event.send
        "HTTP/1.1 303 See Other\r\nServer: Atto Http Server\r\nAccess-Control-Allow-Origin: *\r\nLocation: /srv/sub/\r\n".toList] := by
  decide

/-! ## The directory index -/

/-- The format string of the `readdir` loop produces the listed item. -/
theorem index_item_eq (e : dirent) : index_item e = listed_item e := by
  unfold index_item listed_item type_mark
  split <;> rfl

/-- A write that leaves room for the terminator appends its whole output. -/
theorem index_write_fit (t out : Bytes) (h : t.length + out.length < 64000) :
    index_write ⟨t, t.length, 64000 - t.length⟩ out =
      some ⟨t ++ out, (t ++ out).length, 64000 - (t ++ out).length⟩ := by
  unfold index_write
  simp only
  rw [if_pos (by omega), List.take_of_length_le (by omega)]
  simp only [List.length_append]
  congr 2
  omega

/-- The `readdir` loop appends every item when the items leave room for the terminator. -/
theorem index_entries_fit (es : List dirent) : ∀ (t : Bytes),
    t.length + ((es.map index_item).flatten).length < 64000 →
    index_entries es ⟨t, t.length, 64000 - t.length⟩ =
      some ⟨t ++ (es.map index_item).flatten, (t ++ (es.map index_item).flatten).length,
        64000 - (t ++ (es.map index_item).flatten).length⟩ := by
  induction es with
  | nil => intro t _; simp [index_entries]
  | cons e es ih =>
    intro t h
    simp only [List.map_cons, List.flatten_cons, List.length_append] at h
    unfold index_entries
    rw [index_write_fit t (index_item e) (by omega)]
    simp only
    rw [ih (t ++ index_item e) (by simp only [List.length_append]; omega)]
    simp [List.append_assoc]

/-- The run of `send_directory_index` on a directory that opens and whose page fits. -/
theorem send_directory_index_eq (fs : FileSystem) (name : Bytes) (entries : List dirent)
    (hopen : fs.opendir name = some entries)
    (hroom : (listing_page name entries).length < 64000) :
    send_directory_index fs name = some [Event.opendir name,
      Event.send ("HTTP/1.1 200 OK\r\nServer: Atto Http Server\r\nAccess-Control-Allow-Origin: *\r\nContent-Type: text/html\r\nContent-Length: ".toList
        ++ decimal (listing_page name entries).length ++ "\r\n\r\n".toList),
      Event.send (listing_page name entries)] := by
  have hitems : entries.map listed_item = entries.map index_item := by
    apply List.map_congr_left
    intro e _
    exact (index_item_eq e).symm
  have hpage : listing_page name entries =
      index_head name ++ (entries.map index_item).flatten ++ "</ul></body>".toList := by
    unfold listing_page index_head
    rw [hitems]
  rw [hpage] at hroom ⊢
  simp only [List.length_append] at hroom
  unfold send_directory_index
  have h0 := index_write_fit [] (index_head name) (by simp only [List.length_nil]; omega)
  simp only [List.length_nil, List.nil_append] at h0
  rw [h0]
  simp only [hopen]
  rw [index_entries_fit entries (index_head name) (by omega)]
  simp only
  rw [index_write_fit _ "</ul></body>".toList (by simp only [List.length_append]; omega)]
  simp only [send_html, send_ok_response, List.take_length]
  rw [ok_header_eq _ _ (by decide), fmt_d_small _ (by simp only [List.length_append]; omega)]
  simp

/-- A target ending with `/` makes the resolved path end with `/`. -/
theorem getLast?_append_slash (base url : Bytes) (h : url.getLast? = some '/') :
    (base ++ url).getLast? = some '/' := by
  rw [List.getLast?_append, h]
  rfl

/-- The `case S_IFDIR` of the switch for a path ending with `/`. -/
theorem serve_get_directory (cfg : Config) (fs : FileSystem) (url : Bytes) (st_mode : Nat)
    (hstat : fs.stat (cfg.base_path ++ url) = StatResult.ok st_mode)
    (hdir : st_mode &&& S_IFMT = S_IFDIR)
    (hslash : url.getLast? = some '/') :
    serve_get cfg fs url =
      (if cfg.show_listing ≠ 0 then send_directory_index fs (cfg.base_path ++ url)
       else send_index_file fs (cfg.base_path ++ url)).map
        (fun es => Event.stat (cfg.base_path ++ url) :: es) := by
  unfold serve_get
  rw [hstat]
  simp only [hdir, if_true, serve_directory, getLast?_append_slash _ _ hslash]
  simp

/-- C6 (amended): with listing enabled, for every `GET` request that fits the arrays of
the handler (target shorter than 256 bytes, the three tokens read inside `buffer[1024]`)
whose target ends with `/` and resolves to a directory that `opendir` opens and whose
page fits `buffer[64000]`, the run is
`stat`, `opendir`, a `send` of a 200 header with `Content-Type: text/html`, and a `send`
of the page: its body holds one `<li>` hyperlink per entry of the enumeration, in that
order, whose target and label are the entry name followed by `/` when `d_type` is
`DT_DIR` and by a blank (not by `/`) otherwise. -/
theorem directory_listing_200 (cfg : Config) (fs : FileSystem) (r : Recv) (st_mode : Nat)
    (entries : List dirent)
    (hrecv : 0 < r.ret) (hfit : request_fits r = true)
    (hget : request_method r = "GET".toList)
    (hslash : (request_target r).getLast? = some '/')
    (hstat : fs.stat (cfg.base_path ++ request_target r) = StatResult.ok st_mode)
    (hdir : st_mode &&& S_IFMT = S_IFDIR)
    (hshow : cfg.show_listing ≠ 0)
    (hopen : fs.opendir (cfg.base_path ++ request_target r) = some entries)
    (hroom : (listing_page (cfg.base_path ++ request_target r) entries).length < 64000) :
    handle_connection cfg fs r = some [
      Event.stat (cfg.base_path ++ request_target r),
      Event.opendir (cfg.base_path ++ request_target r),
      Event.send ("HTTP/1.1 200 OK\r\nServer: Atto Http Server\r\nAccess-Control-Allow-Origin: *\r\nContent-Type: text/html\r\nContent-Length: ".toList
        ++ decimal (listing_page (cfg.base_path ++ request_target r) entries).length
        ++ "\r\n\r\n".toList),
      Event.send (listing_page (cfg.base_path ++ request_target r) entries)] := by
  rw [handle_connection_get cfg fs r hrecv hfit hget,
    serve_get_directory cfg fs _ st_mode hstat hdir hslash, if_pos hshow,
    send_directory_index_eq fs _ entries hopen hroom]
  rfl

set_option maxRecDepth 100000 in
/-- The request `GET /pub/` is answered by the index of the four entries of `/srv/pub/`. -/
theorem directory_listing_200_witness :
    handle_connection srv srv_fs (request "GET /pub/ HTTP/1.1\r\n\r\n") = some [
      Event.stat (srv.base_path ++ request_target (request "GET /pub/ HTTP/1.1\r\n\r\n")),
      Event.opendir (srv.base_path ++ request_target (request "GET /pub/ HTTP/1.1\r\n\r\n")),
      Event.send ("HTTP/1.1 200 OK\r\nServer: Atto Http Server\r\nAccess-Control-Allow-Origin: *\r\nContent-Type: text/html\r\nContent-Length: ".toList
        ++ decimal (listing_page (srv.base_path ++ request_target (request "GET /pub/ HTTP/1.1\r\n\r\n"))
            [⟨".".toList, 4⟩, ⟨"img".toList, 4⟩, ⟨"..".toList, 4⟩, ⟨"a.txt".toList, 8⟩]).length
        ++ "\r\n\r\n".toList),
      Event.send (listing_page (srv.base_path ++ request_target (request "GET /pub/ HTTP/1.1\r\n\r\n"))
        [⟨".".toList, 4⟩, ⟨"img".toList, 4⟩, ⟨"..".toList, 4⟩, ⟨"a.txt".toList, 8⟩])] :=
  directory_listing_200 srv srv_fs (request "GET /pub/ HTTP/1.1\r\n\r\n") 0o040755
    [⟨".".toList, 4⟩, ⟨"img".toList, 4⟩, ⟨"..".toList, 4⟩, ⟨"a.txt".toList, 8⟩]
    (by decide) (by decide) (by decide) (by decide) (by decide) (by decide) (by decide)
    (by decide) (by decide)

/-! ## Evaluations at particular inputs -/

/-- C5: evaluation with listing disabled at the directory `/srv/box/`, whose `index.html`
exists and is a character device: `GET /box/` hands it to `send_file` without looking at
its kind and sends a 200 with an empty body, while `GET /box/index.html` goes through the
`switch` on the kind and sends the 403; the two responses differ. -/
theorem index_fallback_skips_kind_check :
    handle_connection srv_no_listing box_fs (request "GET /box/ HTTP/1.1\r\n\r\n") =
      some [Event.stat "/srv/box/".toList, Event.stat "/srv/box/index.html".toList,
        Event.fopen "/srv/box/index.html".toList,
        Event.send "HTTP/1.1 200 OK\r\nServer: Atto Http Server\r\nAccess-Control-Allow-Origin: *\r\nContent-Type: text/html\r\nContent-Length: 0\r\n\r\n".toList,
        Event.send []] ∧
    handle_connection srv_no_listing box_fs (request "GET /box/index.html HTTP/1.1\r\n\r\n") =
      some [Event.stat "/srv/box/index.html".toList, Event.send
        "HTTP/1.1 403 Forbidden\r\nServer: Atto Http Server\r\nAccess-Control-Allow-Origin: *\r\n\r\n".toList] ∧
    (handle_connection srv_no_listing box_fs (request "GET /box/ HTTP/1.1\r\n\r\n")).map sent ≠
      (handle_connection srv_no_listing box_fs
        (request "GET /box/index.html HTTP/1.1\r\n\r\n")).map sent := by
  decide

/-- The name `html` holds no `.`, and `get_mimetype` does not return `text/plain` for it:
the scan ends with `ext_start = 0`, the whole name is compared with the table, and the
result is `text/html`. -/
theorem get_mimetype_of_bare_html :
    '.' ∉ "html".toList ∧ get_mimetype "html".toList = "text/html".toList ∧
      get_mimetype "html".toList ≠ "text/plain".toList := by
  decide

/-- C9: evaluation at `GET /secret.txt`, received in full, where `stat` reports a regular
file and `fopen` returns `NULL`: `send_file` passes the `NULL` stream on to `fseek`, the
run is undefined, and no response text is sent. -/
theorem unreadable_file_no_response :
    0 < (request "GET /secret.txt HTTP/1.1\r\n\r\n").ret ∧
    srv_fs.stat (srv.base_path ++ request_target (request "GET /secret.txt HTTP/1.1\r\n\r\n")) =
      StatResult.ok 0o100600 ∧
    handle_connection srv srv_fs (request "GET /secret.txt HTTP/1.1\r\n\r\n") = none := by
  decide

/-- The sample file holds 2^31 bytes. -/
theorem big_file_length : big_file.length = 2 ^ 31 := List.length_replicate _ _

/-- C8: evaluation at a regular file of 2^31 bytes: the 200 header, formatted with `%d`
from the `size_t` length, says `Content-Length: -2147483648`, and the body sent after the
blank line is the 2147483648 bytes of the file. -/
theorem content_length_of_2GiB_file :
    big_file.length = 2147483648 ∧
    handle_connection srv big_fs (request "GET /big.bin HTTP/1.1\r\n\r\n") =
      some [Event.stat "/srv/big.bin".toList, Event.fopen "/srv/big.bin".toList,
        Event.send "HTTP/1.1 200 OK\r\nServer: Atto Http Server\r\nAccess-Control-Allow-Origin: *\r\nContent-Type: text/plain\r\nContent-Length: -2147483648\r\n\r\n".toList,
        Event.send big_file] := by
  refine ⟨big_file_length, ?_⟩
  have hp : srv.base_path ++ request_target (request "GET /big.bin HTTP/1.1\r\n\r\n") =
      "/srv/big.bin".toList := by decide
  have hstat : big_fs.stat (srv.base_path ++ request_target (request "GET /big.bin HTTP/1.1\r\n\r\n"))
      = StatResult.ok 0o100644 := by decide
  have hopen : big_fs.fopen (srv.base_path ++ request_target (request "GET /big.bin HTTP/1.1\r\n\r\n"))
      = some big_file := by
    rw [hp]; rfl
  rw [handle_connection_get srv big_fs _ (by decide) (by decide) (by decide),
    serve_get_regular srv big_fs _ _ hstat (by decide), send_file_eq big_fs _ big_file hopen,
    hp, big_file_length]
  have hm : get_mimetype "/srv/big.bin".toList = "text/plain".toList := by decide
  have hd : fmt_d (int_of_size_t (2 ^ 31)) = "-2147483648".toList := by decide
  rw [hm, hd]
  rfl

/-! ## Framing -/

/-- A status line followed by header lines ends with CRLF. -/
theorem header_lines_end (status : Bytes) (headers : List Bytes) :
    ∃ y, status ++ CRLF ++ (headers.map (fun h => h ++ CRLF)).flatten = y ++ CRLF := by
  induction headers using List.reverseRecOn with
  | nil => exact ⟨status, by simp⟩
  | append_singleton hs h _ =>
    refine ⟨status ++ CRLF ++ (hs.map (fun h => h ++ CRLF)).flatten ++ h, ?_⟩
    simp [List.append_assoc]

/-- A framed message holds an empty line. -/
theorem framed_has_blank_line (msg : Bytes) (h : is_framed msg) : (CRLF ++ CRLF) <:+: msg := by
  obtain ⟨status, headers, body, rfl⟩ := h
  obtain ⟨y, hy⟩ := header_lines_end status headers
  refine ⟨HTTP_VERSION ++ " ".toList ++ y, body, ?_⟩
  have : HTTP_VERSION ++ " ".toList ++ status ++ CRLF ++
      (headers.map (fun h => h ++ CRLF)).flatten ++ CRLF ++ body =
      HTTP_VERSION ++ " ".toList ++ (status ++ CRLF ++
      (headers.map (fun h => h ++ CRLF)).flatten) ++ CRLF ++ body := by
    simp only [List.append_assoc]
  rw [this, hy]
  simp only [List.append_assoc]

set_option maxRecDepth 100000 in
/-- C7: evaluation at `GET /sub`, a directory: the 303 response ends right after the CRLF of
its `Location` line; it holds no empty line, so it is not a status line, header lines and a
blank line followed by a body. -/
theorem redirect_response_not_framed :
    ∃ tr, handle_connection srv srv_fs (request "GET /sub HTTP/1.1\r\n\r\n") = some tr ∧
      sent tr = "HTTP/1.1 303 See Other\r\nServer: Atto Http Server\r\nAccess-Control-Allow-Origin: *\r\nLocation: /srv/sub/\r\n".toList ∧
      ¬ is_framed (sent tr) := by
  refine ⟨[Event.stat "/srv/sub".toList, Event.send
        "HTTP/1.1 303 See Other\r\nServer: Atto Http Server\r\nAccess-Control-Allow-Origin: *\r\nLocation: /srv/sub/\r\n".toList],
    by decide, by decide, ?_⟩
  intro h
  have := framed_has_blank_line _ h
  revert this
  decide

/-! ## Names without a dot -/

/-- A name without `.` is its own last suffix. -/
theorem last_suffix_no_dot (name : Bytes) (h : '.' ∉ name) : last_suffix name = name := by
  unfold last_suffix
  have : name.reverse.takeWhile (fun c => c != '.') = name.reverse := by
    rw [List.takeWhile_eq_self_iff]
    intro c hc
    have hc2 : c ∈ name := List.mem_reverse.mp hc
    have : c ≠ '.' := fun e => h (e ▸ hc2)
    simpa using this
  rw [this, List.reverse_reverse]

/-- C10 (amended): for every name that holds no `.` and is not itself one of the six
extensions of the table, `get_mimetype` returns `text/plain`. -/
theorem get_mimetype_no_dot (name : Bytes) (hdot : '.' ∉ name)
    (hext : ∀ d ∈ known_types, d.extension ≠ name) :
    get_mimetype name = "text/plain".toList := by
  rw [get_mimetype_eq, last_suffix_no_dot name hdot]
  unfold table_type
  have : known_types.find? (fun d => d.extension == name) = none := by
    rw [List.find?_eq_none]
    intro d hd
    simpa using hext d hd
  rw [this]
  rfl

/-- The name `README` has type `text/plain`. -/
theorem get_mimetype_no_dot_witness :
    get_mimetype "README".toList = "text/plain".toList :=
  get_mimetype_no_dot "README".toList (by decide) (by decide)

/-! ## The value of Content-Length -/

/-- The digits are put in front of the accumulator. -/
theorem utoa_append (fuel : Nat) : ∀ (n : Nat) (acc : Bytes),
    utoa fuel n acc = utoa fuel n [] ++ acc := by
  induction fuel with
  | zero => intro n acc; simp [utoa]
  | succ f ih =>
    intro n acc
    unfold utoa
    split
    · simp
    · rw [ih (n / 10) (digit (n % 10) :: acc), ih (n / 10) [digit (n % 10)]]
      simp

/-- The value of a digit character. -/
theorem digit_toNat (d : Nat) (h : d < 10) : (digit d).toNat - 48 = d := by
  interval_cases d <;> rfl

/-- The value of a numeral followed by one more character. -/
theorem decimal_value_snoc (s : Bytes) (c : Char) :
    decimal_value (s ++ [c]) = 10 * decimal_value s + (c.toNat - 48) := by
  simp [decimal_value, List.foldl_append]

/-- With enough fuel the digits of `n` have value `n`. -/
theorem decimal_value_utoa (fuel : Nat) : ∀ n, n < fuel → decimal_value (utoa fuel n []) = n := by
  induction fuel with
  | zero => intro n h; omega
  | succ f ih =>
    intro n h
    unfold utoa
    split
    · rename_i h10
      have := decimal_value_snoc [] (digit n)
      simp only [List.nil_append] at this
      rw [this, digit_toNat n h10]
      simp [decimal_value]
    · rw [utoa_append, decimal_value_snoc, ih (n / 10) (by omega),
        digit_toNat _ (Nat.mod_lt _ (by norm_num))]
      omega

/-- The decimal numeral of `n` has value `n`. -/
theorem decimal_value_decimal (n : Nat) : decimal_value (decimal n) = n :=
  decimal_value_utoa (n + 1) n (by omega)

/-- For a body shorter than 2^31 bytes `send_ok_response` sends a header whose
`Content-Length` is the decimal numeral of the body length, then the body. -/
theorem content_length_exact (data mimetype : Bytes) (hm : mimetype.length ≤ 900)
    (hsize : data.length < 2 ^ 31) :
    send_ok_response data data.length mimetype =
      [Event.send ("HTTP/1.1 200 OK\r\nServer: Atto Http Server\r\nAccess-Control-Allow-Origin: *\r\nContent-Type: ".toList
          ++ mimetype ++ "\r\nContent-Length: ".toList ++ decimal data.length
          ++ "\r\n\r\n".toList),
        Event.send data] ∧
    decimal_value (decimal data.length) = data.length := by
  refine ⟨?_, decimal_value_decimal _⟩
  simp only [send_ok_response, List.take_length]
  rw [ok_header_eq _ _ hm, fmt_d_small _ hsize]

/-! ## The forms of a response -/

/-- A `stat` sends nothing. -/
theorem sent_stat (p : Bytes) (es : List Event) : sent (Event.stat p :: es) = sent es := rfl
/-- An `fopen` sends nothing. -/
theorem sent_fopen (p : Bytes) (es : List Event) : sent (Event.fopen p :: es) = sent es := rfl
/-- An `opendir` sends nothing. -/
theorem sent_opendir (p : Bytes) (es : List Event) : sent (Event.opendir p :: es) = sent es := rfl
/-- A `send` sends its data. -/
theorem sent_send (d : Bytes) (es : List Event) : sent (Event.send d :: es) = d ++ sent es := rfl
/-- The empty run sends nothing. -/
theorem sent_nil : sent [] = [] := rfl

/-- The form of a 200 response. -/
theorem send_ok_response_shape (data mimetype : Bytes) (hm : mimetype.length ≤ 15) :
    response_shape (sent (send_ok_response data data.length mimetype)) := by
  right; right; right; right; right
  refine ⟨mimetype, data, hm, ?_⟩
  simp only [send_ok_response, List.take_length, sent_send, sent_nil, List.append_nil]
  rw [ok_header_eq _ _ (by omega)]

/-- The form of the response to a failed `stat`. -/
theorem stat_failed_shape (errno : Nat) : response_shape (sent (stat_failed errno)) := by
  unfold stat_failed
  split
  · left; rw [send_not_found_eq]; rfl
  · right; right; right; left; rw [send_internal_error_eq]; rfl

/-- The form of the redirect. -/
theorem send_redirect_shape (url : Bytes) : response_shape (sent (send_redirect url)) := by
  right; right; right; right; left
  refine ⟨url, ?_⟩
  simp [send_redirect, sent, HTTP_VERSION, STATUS_303, CRLF, STANDARD_HEADERS]

/-- The form of the response of `send_file`. -/
theorem send_file_shape (fs : FileSystem) (name : Bytes) (tr : List Event)
    (h : send_file fs name = some tr) : response_shape (sent tr) := by
  unfold send_file at h
  split at h
  · exact absurd h (by simp)
  · rename_i data _
    simp only [Option.some.injEq] at h
    subst h
    rw [sent_fopen]
    exact send_ok_response_shape data _ (get_mimetype_length_le name)

/-- The form of the response of `send_directory_index`. -/
theorem send_directory_index_shape (fs : FileSystem) (name : Bytes) (tr : List Event)
    (h : send_directory_index fs name = some tr) : response_shape (sent tr) := by
  unfold send_directory_index at h
  split at h
  · exact absurd h (by simp)
  · split at h
    · exact absurd h (by simp)
    · split at h
      · exact absurd h (by simp)
      · split at h
        · exact absurd h (by simp)
        · rename_i b2 _
          simp only [Option.some.injEq] at h
          subst h
          rw [sent_opendir]
          exact send_ok_response_shape b2.text _ (by decide)

/-- The form of the response of the `index.html` fallback. -/
theorem send_index_file_shape (fs : FileSystem) (name : Bytes) (tr : List Event)
    (h : send_index_file fs name = some tr) : response_shape (sent tr) := by
  unfold send_index_file at h
  split at h
  · simp only [Option.some.injEq] at h
    subst h
    rw [sent_stat]
    exact stat_failed_shape _
  · simp only [Option.map_eq_some'] at h
    obtain ⟨es, hes, rfl⟩ := h
    rw [sent_stat]
    exact send_file_shape fs _ es hes

/-- The form of the response of `case S_IFDIR`. -/
theorem serve_directory_shape (cfg : Config) (fs : FileSystem) (name : Bytes)
    (tr : List Event) (h : serve_directory cfg fs name = some tr) :
    response_shape (sent tr) := by
  unfold serve_directory at h
  split at h
  · exact absurd h (by simp)
  · split at h
    · simp only [Option.some.injEq] at h
      subst h
      exact send_redirect_shape _
    · split at h
      · exact send_directory_index_shape fs name tr h
      · exact send_index_file_shape fs name tr h

/-- The form of the response of the `GET` branch. -/
theorem serve_get_shape (cfg : Config) (fs : FileSystem) (url : Bytes) (tr : List Event)
    (h : serve_get cfg fs url = some tr) : response_shape (sent tr) := by
  unfold serve_get at h
  split at h
  · simp only [Option.some.injEq] at h
    subst h
    rw [sent_stat]
    exact stat_failed_shape _
  · simp only [Option.map_eq_some'] at h
    obtain ⟨es, hes, rfl⟩ := h
    rw [sent_stat]
    split at hes
    · exact serve_directory_shape cfg fs _ es hes
    · split at hes
      · exact send_file_shape fs _ es hes
      · simp only [Option.some.injEq] at hes
        subst hes
        right; left
        rw [send_forbidden_eq]; rfl

/-- Every defined run after a successful receive sends a response of one of the six forms. -/
theorem defined_run_shape (cfg : Config) (fs : FileSystem) (r : Recv) (tr : List Event)
    (hrecv : 0 < r.ret) (h : handle_connection cfg fs r = some tr) :
    response_shape (sent tr) := by
  unfold handle_connection at h
  rw [if_neg (not_le.mpr hrecv)] at h
  split at h
  · exact absurd h (by simp)
  · split at h
    · exact serve_get_shape cfg fs _ tr h
    · simp only [Option.some.injEq] at h
      subst h
      right; right; left
      rw [send_method_not_allowed_eq]; rfl

/-- Truncation by `snprintf` keeps a start shorter than the array. -/
theorem isPrefix_snprintf (p x : Bytes) (size : Nat) (h : p.length < size) :
    p <+: snprintf size (p ++ x) := by
  unfold snprintf
  rw [List.take_append_eq_append_take, List.take_of_length_le (by omega)]
  exact List.prefix_append _ _

/-- Every response form starts with the status line of one of the six status texts and
the two base headers. -/
theorem response_shape_begins (msg : Bytes) (h : response_shape msg) :
    begins_with_status msg := by
  rcases h with h | h | h | h | ⟨url, h⟩ | ⟨mimetype, body, _, h⟩
  · subst h; exact ⟨STATUS_404, by simp [status_texts], by decide⟩
  · subst h; exact ⟨STATUS_403, by simp [status_texts], by decide⟩
  · subst h; exact ⟨STATUS_405, by simp [status_texts], by decide⟩
  · subst h; exact ⟨STATUS_500, by simp [status_texts], by decide⟩
  · subst h
    refine ⟨STATUS_303, by simp [status_texts], ?_⟩
    have := isPrefix_snprintf (HTTP_VERSION ++ " ".toList ++ STATUS_303 ++ CRLF ++ STANDARD_HEADERS)
      ("Location: ".toList ++ url ++ "\r\n".toList) 1024 (by decide)
    simpa [HTTP_VERSION, STATUS_303, CRLF, STANDARD_HEADERS] using this
  · subst h
    refine ⟨STATUS_200, by simp [status_texts], ?_⟩
    refine ⟨"Content-Type: ".toList ++ mimetype ++ "\r\nContent-Length: ".toList
      ++ fmt_d (int_of_size_t body.length) ++ "\r\n\r\n".toList ++ body, ?_⟩
    simp [HTTP_VERSION, STATUS_200, CRLF, STANDARD_HEADERS]

/-- Every response form other than the redirect is a framed message. -/
theorem response_shape_framed (msg : Bytes) (h : response_shape msg) :
    is_framed msg ∨ ∃ url : Bytes, msg = snprintf 1024
      ("HTTP/1.1 303 See Other\r\nServer: Atto Http Server\r\nAccess-Control-Allow-Origin: *\r\nLocation: ".toList
        ++ url ++ "\r\n".toList) := by
  rcases h with h | h | h | h | ⟨url, h⟩ | ⟨mimetype, body, _, h⟩
  · left; subst h
    exact ⟨STATUS_404, ["Server: Atto Http Server".toList, "Access-Control-Allow-Origin: *".toList], [], by decide⟩
  · left; subst h
    exact ⟨STATUS_403, ["Server: Atto Http Server".toList, "Access-Control-Allow-Origin: *".toList], [], by decide⟩
  · left; subst h
    exact ⟨STATUS_405, ["Server: Atto Http Server".toList, "Access-Control-Allow-Origin: *".toList], [], by decide⟩
  · left; subst h
    exact ⟨STATUS_500, ["Server: Atto Http Server".toList, "Access-Control-Allow-Origin: *".toList], [], by decide⟩
  · right; exact ⟨url, h⟩
  · left; subst h
    refine ⟨STATUS_200, ["Server: Atto Http Server".toList, "Access-Control-Allow-Origin: *".toList,
      "Content-Type: ".toList ++ mimetype,
      "Content-Length: ".toList ++ fmt_d (int_of_size_t body.length)], body, ?_⟩
    simp [HTTP_VERSION, STATUS_200, CRLF]

/-- Every defined run after a successful receive starts with a status line of the six and
the base headers. -/
theorem defined_run_begins_with_status (cfg : Config) (fs : FileSystem) (r : Recv)
    (tr : List Event) (hrecv : 0 < r.ret) (h : handle_connection cfg fs r = some tr) :
    begins_with_status (sent tr) :=
  response_shape_begins _ (defined_run_shape cfg fs r tr hrecv h)

/-- Every defined run after a successful receive sends a framed message or the redirect. -/
theorem defined_run_framed_or_redirect (cfg : Config) (fs : FileSystem) (r : Recv)
    (tr : List Event) (hrecv : 0 < r.ret) (h : handle_connection cfg fs r = some tr) :
    is_framed (sent tr) ∨ ∃ url : Bytes, sent tr = snprintf 1024
      ("HTTP/1.1 303 See Other\r\nServer: Atto Http Server\r\nAccess-Control-Allow-Origin: *\r\nLocation: ".toList
        ++ url ++ "\r\n".toList) :=
  response_shape_framed _ (defined_run_shape cfg fs r tr hrecv h)

/-! ## Directories: redirect and index.html -/

/-- A `GET` for a directory whose resolved path does not end with `/` is answered, in
either listing mode, by the 303 whose `Location` is the resolved path followed by `/`. -/
theorem directory_without_slash_303 (cfg : Config) (fs : FileSystem) (r : Recv)
    (st_mode : Nat) (c : Char)
    (hrecv : 0 < r.ret) (hfit : request_fits r = true)
    (hget : request_method r = "GET".toList)
    (hstat : fs.stat (cfg.base_path ++ request_target r) = StatResult.ok st_mode)
    (hdir : st_mode &&& S_IFMT = S_IFDIR)
    (hlast : (cfg.base_path ++ request_target r).getLast? = some c) (hc : c ≠ '/')
    (hlen : (cfg.base_path ++ request_target r).length ≤ 900) :
    handle_connection cfg fs r = some [Event.stat (cfg.base_path ++ request_target r),
      Event.send
        ("HTTP/1.1 303 See Other\r\nServer: Atto Http Server\r\nAccess-Control-Allow-Origin: *\r\nLocation: ".toList
          ++ (cfg.base_path ++ request_target r ++ "/".toList) ++ "\r\n".toList)] := by
  rw [handle_connection_get cfg fs r hrecv hfit hget,
    serve_get_redirect cfg fs _ st_mode c hstat hdir hlast hc, snprintf_short]
  simp only [List.length_append] at hlen ⊢
  simp
  omega

/-- With listing disabled, a `GET` for a directory path ending with `/` whose `index.html`
does not exist is answered by the 404. -/
theorem index_absent_404 (cfg : Config) (fs : FileSystem) (r : Recv) (st_mode : Nat)
    (hrecv : 0 < r.ret) (hfit : request_fits r = true)
    (hget : request_method r = "GET".toList)
    (hslash : (request_target r).getLast? = some '/')
    (hstat : fs.stat (cfg.base_path ++ request_target r) = StatResult.ok st_mode)
    (hdir : st_mode &&& S_IFMT = S_IFDIR)
    (hshow : cfg.show_listing = 0)
    (hidx : fs.stat (cfg.base_path ++ request_target r ++ "index.html".toList) =
      StatResult.error ENOENT) :
    handle_connection cfg fs r = some [Event.stat (cfg.base_path ++ request_target r),
      Event.stat (cfg.base_path ++ request_target r ++ "index.html".toList),
      Event.send "HTTP/1.1 404 Not Found\r\nServer: Atto Http Server\r\nAccess-Control-Allow-Origin: *\r\n\r\n".toList] := by
  rw [handle_connection_get cfg fs r hrecv hfit hget,
    serve_get_directory cfg fs _ st_mode hstat hdir hslash, if_neg (by simp [hshow])]
  unfold send_index_file
  rw [hidx]
  simp [stat_failed, send_not_found_eq]

/-- With listing disabled, a `GET` for a directory path ending with `/` whose `index.html`
is a regular file that can be read sends the same bytes as the `GET` of that path followed
by `index.html`: the 200 header and the contents of the file. -/
theorem index_fallback_same_as_direct (cfg : Config) (fs : FileSystem) (r r2 : Recv)
    (dir_mode file_mode : Nat) (contents : Bytes)
    (hrecv : 0 < r.ret) (hfit : request_fits r = true)
    (hget : request_method r = "GET".toList)
    (hrecv2 : 0 < r2.ret) (hfit2 : request_fits r2 = true)
    (hget2 : request_method r2 = "GET".toList)
    (htarget : request_target r2 = request_target r ++ "index.html".toList)
    (hslash : (request_target r).getLast? = some '/')
    (hstat : fs.stat (cfg.base_path ++ request_target r) = StatResult.ok dir_mode)
    (hdir : dir_mode &&& S_IFMT = S_IFDIR)
    (hshow : cfg.show_listing = 0)
    (hidx : fs.stat (cfg.base_path ++ request_target r ++ "index.html".toList) =
      StatResult.ok file_mode)
    (hreg : file_mode &&& S_IFMT = S_IFREG)
    (hopen : fs.fopen (cfg.base_path ++ request_target r ++ "index.html".toList) =
      some contents) :
    (handle_connection cfg fs r).map sent = (handle_connection cfg fs r2).map sent ∧
    (handle_connection cfg fs r).map sent = some
      ("HTTP/1.1 200 OK\r\nServer: Atto Http Server\r\nAccess-Control-Allow-Origin: *\r\nContent-Type: ".toList
        ++ get_mimetype (cfg.base_path ++ request_target r ++ "index.html".toList)
        ++ "\r\nContent-Length: ".toList ++ fmt_d (int_of_size_t contents.length)
        ++ "\r\n\r\n".toList ++ contents) := by
  have hpath : cfg.base_path ++ request_target r2 =
      cfg.base_path ++ request_target r ++ "index.html".toList := by
    rw [htarget, List.append_assoc]
  have h1 : handle_connection cfg fs r = some [Event.stat (cfg.base_path ++ request_target r),
      Event.stat (cfg.base_path ++ request_target r ++ "index.html".toList),
      Event.fopen (cfg.base_path ++ request_target r ++ "index.html".toList),
      Event.send ("HTTP/1.1 200 OK\r\nServer: Atto Http Server\r\nAccess-Control-Allow-Origin: *\r\nContent-Type: ".toList
        ++ get_mimetype (cfg.base_path ++ request_target r ++ "index.html".toList)
        ++ "\r\nContent-Length: ".toList ++ fmt_d (int_of_size_t contents.length)
        ++ "\r\n\r\n".toList),
      Event.send contents] := by
    rw [handle_connection_get cfg fs r hrecv hfit hget,
      serve_get_directory cfg fs _ dir_mode hstat hdir hslash, if_neg (by simp [hshow])]
    unfold send_index_file
    rw [hidx]
    simp only [send_file_eq fs _ contents hopen]
    rfl
  have h2 : handle_connection cfg fs r2 = some [
      Event.stat (cfg.base_path ++ request_target r ++ "index.html".toList),
      Event.fopen (cfg.base_path ++ request_target r ++ "index.html".toList),
      Event.send ("HTTP/1.1 200 OK\r\nServer: Atto Http Server\r\nAccess-Control-Allow-Origin: *\r\nContent-Type: ".toList
        ++ get_mimetype (cfg.base_path ++ request_target r ++ "index.html".toList)
        ++ "\r\nContent-Length: ".toList ++ fmt_d (int_of_size_t contents.length)
        ++ "\r\n\r\n".toList),
      Event.send contents] := by
    rw [handle_connection_get cfg fs r2 hrecv2 hfit2 hget2,
      serve_get_regular cfg fs _ file_mode (by rw [hpath]; exact hidx) hreg, hpath,
      send_file_eq fs _ contents hopen]
    rfl
  rw [h1, h2]
  constructor
  · rfl
  · simp [sent]

/-! ## Entities that are neither directory nor regular file -/

/-- C11 (amended): for every `GET` request that fits the arrays of the handler (target
shorter than 256 bytes, the three tokens read inside `buffer[1024]`) for which `stat` of
`base_path` followed by the target succeeds with a file type that is neither `S_IFDIR` nor `S_IFREG`,
the run is that `stat` and one `send` of the 403 response, which ends at its blank line. -/
theorem other_kind_403 (cfg : Config) (fs : FileSystem) (r : Recv) (st_mode : Nat)
    (hrecv : 0 < r.ret) (hfit : request_fits r = true)
    (hget : request_method r = "GET".toList)
    (hstat : fs.stat (cfg.base_path ++ request_target r) = StatResult.ok st_mode)
    (hnotdir : st_mode &&& S_IFMT ≠ S_IFDIR)
    (hnotreg : st_mode &&& S_IFMT ≠ S_IFREG) :
    handle_connection cfg fs r = some [Event.stat (cfg.base_path ++ request_target r),
      Event.send "HTTP/1.1 403 Forbidden\r\nServer: Atto Http Server\r\nAccess-Control-Allow-Origin: *\r\n\r\n".toList] := by
  rw [handle_connection_get cfg fs r hrecv hfit hget]
  unfold serve_get
  rw [hstat]
  simp only [if_neg hnotdir, if_neg hnotreg, Option.map_some', send_forbidden_eq]

/-- The request `GET /box/index.html`, a character device, is answered by the 403. -/
theorem other_kind_403_witness :
    handle_connection srv box_fs (request "GET /box/index.html HTTP/1.1\r\n\r\n") =
      some [Event.stat (srv.base_path ++ request_target (request "GET /box/index.html HTTP/1.1\r\n\r\n")),
        Event.send "HTTP/1.1 403 Forbidden\r\nServer: Atto Http Server\r\nAccess-Control-Allow-Origin: *\r\n\r\n".toList] :=
  other_kind_403 srv box_fs (request "GET /box/index.html HTTP/1.1\r\n\r\n") 0o020666
    (by decide) (by decide) (by decide) (by decide) (by decide) (by decide)

/-! ## The receive -/

/-- When `recv` returns zero or a negative value the run is empty, whatever the buffer
holds: nothing is sent and no filesystem call is made. -/
theorem recv_failed_sends_nothing (cfg : Config) (fs : FileSystem) (r : Recv)
    (hrecv : r.ret ≤ 0) : handle_connection cfg fs r = some [] := by
  unfold handle_connection
  rw [if_pos hrecv]

/-- C12: evaluation at a receive returning 0, at one returning -1, and at the received
request `GET /secret.txt` for a regular file whose `fopen` returns `NULL`: the first two
runs are empty, and in the third, although `recv` returned a positive value, the run is
undefined and no response is sent. -/
theorem positive_recv_without_response :
    handle_connection srv srv_fs ⟨0, []⟩ = some [] ∧
    handle_connection srv srv_fs ⟨-1, []⟩ = some [] ∧
    0 < (request "GET /secret.txt HTTP/1.1\r\n\r\n").ret ∧
    handle_connection srv srv_fs (request "GET /secret.txt HTTP/1.1\r\n\r\n") = none := by
  decide

/-! ## The command line -/

/-- C14: evaluation of the argument loop: a command line ending with `-p` or `--port`
ends the process with status 0, not with a nonzero status; an unknown flag gives status 1
and `--help` status 0. -/
theorem missing_port_exits_zero :
    main ["attos".toList, "-p".toList] = ArgsResult.exit 0 ∧
    main ["attos".toList, "--port".toList] = ArgsResult.exit 0 ∧
    main ["attos".toList, "/srv".toList, "-L".toList, "-p".toList] = ArgsResult.exit 0 ∧
    main ["attos".toList, "--bogus".toList] = ArgsResult.exit 1 ∧
    main ["attos".toList, "--help".toList] = ArgsResult.exit 0 := by
  decide

/-- A port flag that is the last argument ends the process with status 0. -/
theorem port_flag_last_exit (g : Globals) :
    parse_flags ["-p".toList] g = ArgsResult.exit 0 ∧
    parse_flags ["--port".toList] g = ArgsResult.exit 0 := by
  constructor <;> rfl

/-- A help flag ends the process with status 0. -/
theorem help_flag_exit (rest : List Bytes) (g : Globals) :
    parse_flags ("-h".toList :: rest) g = ArgsResult.exit 0 ∧
    parse_flags ("-?".toList :: rest) g = ArgsResult.exit 0 ∧
    parse_flags ("--help".toList :: rest) g = ArgsResult.exit 0 := by
  refine ⟨?_, ?_, ?_⟩ <;>
    (unfold parse_flags; rw [if_pos (by decide), if_pos (by decide)])

/-- An argument that starts with `-` and is none of the seven flags ends the process with
status 1. -/
theorem unknown_flag_exit (arg : Bytes) (rest : List Bytes) (g : Globals)
    (hdash : arg.head? = some '-')
    (hunknown : arg ∉ ["-h".toList, "-?".toList, "--help".toList, "-p".toList,
      "--port".toList, "-L".toList, "--no-listing".toList]) :
    parse_flags (arg :: rest) g = ArgsResult.exit 1 := by
  simp only [List.mem_cons, List.mem_singleton, List.not_mem_nil, or_false, not_or] at hunknown
  obtain ⟨h1, h2, h3, h4, h5, h6, h7⟩ := hunknown
  unfold parse_flags
  rw [if_pos hdash, if_neg (by simp only [not_or]; exact ⟨h1, h2, h3⟩),
    if_neg (by simp only [not_or]; exact ⟨h4, h5⟩),
    if_neg (by simp only [not_or]; exact ⟨h6, h7⟩)]

/-! ## Names with a dot -/

/-- What `dropWhile` leaves is empty or starts with a byte failing the test. -/
theorem dropWhile_head (p : Char → Bool) (l : Bytes) :
    l.dropWhile p = [] ∨ ∃ d ds, l.dropWhile p = d :: ds ∧ p d = false := by
  induction l with
  | nil => left; rfl
  | cons c cs ih =>
    by_cases h : p c = true
    · rw [List.dropWhile_cons_of_pos h]; exact ih
    · right
      refine ⟨c, cs, List.dropWhile_cons_of_neg h, ?_⟩
      simpa using h

/-- A name that holds a `.` is some text, its last `.`, and its last suffix, which holds
no `.`. -/
theorem last_suffix_spec (name : Bytes) (hdot : '.' ∈ name) :
    (∃ pre, name = pre ++ '.' :: last_suffix name) ∧ '.' ∉ last_suffix name := by
  have hsplit := List.takeWhile_append_dropWhile (fun c => c != '.') name.reverse
  have hno : '.' ∉ last_suffix name := by
    unfold last_suffix
    intro hmem
    have h1 := List.mem_takeWhile_imp (List.mem_reverse.mp hmem)
    simp at h1
  refine ⟨?_, hno⟩
  rcases dropWhile_head (fun c => c != '.') name.reverse with h | ⟨d, ds, h, hd⟩
  · rw [h, List.append_nil] at hsplit
    exfalso
    apply hno
    unfold last_suffix
    rw [hsplit, List.reverse_reverse]
    exact hdot
  · have hd2 : d = '.' := by simpa using hd
    subst hd2
    rw [h] at hsplit
    refine ⟨ds.reverse, ?_⟩
    have := congrArg List.reverse hsplit
    rw [List.reverse_reverse, List.reverse_append, List.reverse_cons] at this
    exact this.symm.trans (by simp [last_suffix])

/-- The table as a chain of comparisons in table order. -/
theorem table_type_eq (ext : Bytes) :
    table_type ext =
      if ext = "html".toList then "text/html".toList
      else if ext = "css".toList then "text/css".toList
      else if ext = "js".toList then "text/javascript".toList
      else if ext = "png".toList then "image/png".toList
      else if ext = "jpg".toList then "image/jpg".toList
      else if ext = "bmp".toList then "image/bmp".toList
      else "text/plain".toList := by
  rw [table_type, ← lookup_type_eq]
  simp only [known_types, lookup_type]

/-- C15: every name that holds a `.` is some text, its last `.` and a text `ext` without
`.`, and `get_mimetype` returns the type of the first table entry whose extension equals
`ext` byte for byte, in table order html, css, js, png, jpg, bmp, and `text/plain` when
no entry does. -/
theorem get_mimetype_with_dot (name : Bytes) (hdot : '.' ∈ name) :
    ∃ pre ext : Bytes, name = pre ++ '.' :: ext ∧ '.' ∉ ext ∧
      get_mimetype name =
        if ext = "html".toList then "text/html".toList
        else if ext = "css".toList then "text/css".toList
        else if ext = "js".toList then "text/javascript".toList
        else if ext = "png".toList then "image/png".toList
        else if ext = "jpg".toList then "image/jpg".toList
        else if ext = "bmp".toList then "image/bmp".toList
        else "text/plain".toList := by
  obtain ⟨⟨pre, hpre⟩, hno⟩ := last_suffix_spec name hdot
  exact ⟨pre, last_suffix name, hpre, hno, by rw [get_mimetype_eq, table_type_eq]⟩

/-- The name `/srv/site.v2/main.css` has a last suffix and its type is read off the table. -/
theorem get_mimetype_with_dot_witness :
    ∃ pre ext : Bytes, "/srv/site.v2/main.css".toList = pre ++ '.' :: ext ∧ '.' ∉ ext ∧
      get_mimetype "/srv/site.v2/main.css".toList =
        if ext = "html".toList then "text/html".toList
        else if ext = "css".toList then "text/css".toList
        else if ext = "js".toList then "text/javascript".toList
        else if ext = "png".toList then "image/png".toList
        else if ext = "jpg".toList then "image/jpg".toList
        else if ext = "bmp".toList then "image/bmp".toList
        else "text/plain".toList :=
  get_mimetype_with_dot "/srv/site.v2/main.css".toList (by decide)

/-! ## The cursor of `parse_word` -/

/-- The second loop of `parse_word` stops at the first whitespace or NUL. -/
theorem copy_word_snd (inp : Bytes) :
    (copy_word inp).2 = inp.dropWhile (fun c => !isspace c && c != NUL) := by
  induction inp with
  | nil => rfl
  | cons c cs ih =>
    rw [copy_word, List.dropWhile_cons]
    by_cases h : (!isspace c && c != NUL) = true
    · rw [if_pos h]
      simp only [h, if_true]
      exact ih
    · have h2 : (!isspace c && c != NUL) = false := by simpa using h
      rw [if_neg h]
      simp only [h2, Bool.false_eq_true, if_false]

/-- A whitespace byte is not NUL. -/
theorem isspace_ne_NUL (c : Char) (h : isspace c = true) : c ≠ NUL := by
  intro e
  rw [e, isspace_NUL] at h
  exact Bool.noConfusion h

/-- The bytes `parse_word` passes over before its stopping point, none of them NUL. -/
theorem parse_word_stop_split (inp : Bytes) :
    ∃ ws tok : Bytes, inp = ws ++ tok ++ (copy_word (skip_spaces inp)).2 ∧
      (∀ c ∈ ws, isspace c = true) ∧ tok = (parse_word inp).1 ∧
      (∀ c ∈ tok, isspace c = false ∧ c ≠ NUL) := by
  refine ⟨inp.takeWhile isspace,
    (inp.dropWhile isspace).takeWhile (fun c => !isspace c && c != NUL), ?_, ?_, ?_, ?_⟩
  · rw [copy_word_snd, skip_spaces_eq, List.append_assoc, List.takeWhile_append_dropWhile,
      List.takeWhile_append_dropWhile]
  · intro c hc
    exact List.mem_takeWhile_imp hc
  · unfold parse_word
    rw [copy_word_fst, skip_spaces_eq]
  · intro c hc
    have := List.mem_takeWhile_imp hc
    simpa using this

/-- The cursor `parse_word` returns is a suffix of its input, and no byte it passed over is NUL. -/
theorem parse_word_cursor_split (inp : Bytes) :
    ∃ pre : Bytes, inp = pre ++ (parse_word inp).2 ∧ NUL ∉ pre := by
  obtain ⟨ws, tok, hsplit, hws, _, htok⟩ := parse_word_stop_split inp
  have hnoNUL : NUL ∉ ws ++ tok := by
    intro hmem
    rcases List.mem_append.mp hmem with h | h
    · exact isspace_ne_NUL NUL (hws NUL h) rfl
    · exact (htok NUL h).2 rfl
  unfold parse_word
  simp only
  cases hstop : (copy_word (skip_spaces inp)).2 with
  | nil =>
    rw [hstop] at hsplit
    exact ⟨ws ++ tok, by simpa [step_over] using hsplit, hnoNUL⟩
  | cons c cs =>
    rw [hstop] at hsplit
    by_cases hc : c = NUL
    · refine ⟨ws ++ tok, ?_, hnoNUL⟩
      simp only [step_over, hc, bne_self_eq_false, Bool.false_eq_true, if_false]
      rw [hsplit, hc]
    · refine ⟨ws ++ tok ++ [c], ?_, ?_⟩
      · have : (c != NUL) = true := by simpa using hc
        simp only [step_over, this, if_true]
        rw [hsplit]
        simp
      · intro hmem
        rcases List.mem_append.mp hmem with h | h
        · exact hnoNUL h
        · simp only [List.mem_singleton] at h
          exact hc h.symm

/-- Leading whitespace in front of a token or of the terminator is skipped. -/
theorem skip_spaces_append (ws l : Bytes) (hws : ∀ c ∈ ws, isspace c = true)
    (hl : ∀ c, l.head? = some c → isspace c = false) : skip_spaces (ws ++ l) = l := by
  rw [skip_spaces_eq, List.dropWhile_append_of_pos hws]
  cases l with
  | nil => rfl
  | cons c cs =>
    have := hl c rfl
    rw [List.dropWhile_cons_of_neg (by simp [this])]

/-- The second loop copies a token up to a byte that is whitespace or NUL. -/
theorem copy_word_token (tok : Bytes) (c : Char) (rest : Bytes)
    (htok : ∀ x ∈ tok, isspace x = false ∧ x ≠ NUL)
    (hc : isspace c = true ∨ c = NUL) :
    copy_word (tok ++ c :: rest) = (tok, c :: rest) := by
  induction tok with
  | nil =>
    have : (!isspace c && c != NUL) = false := by
      rcases hc with h | h
      · simp [h]
      · simp [h]
    simp only [List.nil_append, copy_word, this, Bool.false_eq_true, if_false]
  | cons t ts ih =>
    have ht := htok t (List.mem_cons_self _ _)
    have hcond : (!isspace t && t != NUL) = true := by simp [ht.1, ht.2]
    have ih2 := ih (fun x hx => htok x (List.mem_cons_of_mem _ hx))
    rw [List.cons_append, copy_word, if_pos hcond, ih2]

/-- The second loop copies a token that runs to the end of the buffer. -/
theorem copy_word_token_end (tok : Bytes) (htok : ∀ x ∈ tok, isspace x = false ∧ x ≠ NUL) :
    copy_word tok = (tok, []) := by
  induction tok with
  | nil => rfl
  | cons t ts ih =>
    have ht := htok t (List.mem_cons_self _ _)
    have hcond : (!isspace t && t != NUL) = true := by simp [ht.1, ht.2]
    have ih2 := ih (fun x hx => htok x (List.mem_cons_of_mem _ hx))
    rw [copy_word, if_pos hcond, ih2]

/-- C17: `parse_word` is total, and for every input: the cursor it returns is a suffix of
the input and none of the bytes passed over is NUL; after a token ended by a whitespace
byte the cursor is right after that byte; after a token (possibly empty) ended by the
terminator, written in the buffer or implied by its zero-initialised end, the cursor is on
the terminator, and a further call returns the empty token and the same cursor. -/
theorem parse_word_cursor (inp : Bytes) :
    (∃ pre : Bytes, inp = pre ++ (parse_word inp).2 ∧ NUL ∉ pre) ∧
    (∀ (ws tok : Bytes) (w : Char) (rest : Bytes), inp = ws ++ tok ++ w :: rest →
      (∀ c ∈ ws, isspace c = true) → tok ≠ [] → (∀ c ∈ tok, isspace c = false ∧ c ≠ NUL) →
      isspace w = true → parse_word inp = (tok, rest)) ∧
    (∀ (ws tok rest : Bytes), inp = ws ++ tok ++ NUL :: rest →
      (∀ c ∈ ws, isspace c = true) → (∀ c ∈ tok, isspace c = false ∧ c ≠ NUL) →
      parse_word inp = (tok, NUL :: rest) ∧
      parse_word (parse_word inp).2 = ([], (parse_word inp).2)) ∧
    (∀ (ws tok : Bytes), inp = ws ++ tok →
      (∀ c ∈ ws, isspace c = true) → (∀ c ∈ tok, isspace c = false ∧ c ≠ NUL) →
      parse_word inp = (tok, []) ∧
      parse_word (parse_word inp).2 = ([], (parse_word inp).2)) := by
  refine ⟨parse_word_cursor_split inp, ?_, ?_, ?_⟩
  · intro ws tok w rest hinp hws hne htok hw
    subst hinp
    have hhead : ∀ c, (tok ++ w :: rest).head? = some c → isspace c = false := by
      intro c hc
      cases tok with
      | nil => exact absurd rfl hne
      | cons t ts =>
        simp only [List.cons_append, List.head?_cons, Option.some.injEq] at hc
        exact hc ▸ (htok t (List.mem_cons_self _ _)).1
    unfold parse_word
    rw [List.append_assoc, skip_spaces_append ws _ hws hhead,
      copy_word_token tok w rest htok (Or.inl hw)]
    have : (w != NUL) = true := by simpa using isspace_ne_NUL w hw
    simp only [step_over, this, if_true]
  · intro ws tok rest hinp hws htok
    subst hinp
    have hhead : ∀ c, (tok ++ NUL :: rest).head? = some c → isspace c = false := by
      intro c hc
      cases tok with
      | nil =>
        simp only [List.nil_append, List.head?_cons, Option.some.injEq] at hc
        exact hc ▸ isspace_NUL
      | cons t ts =>
        simp only [List.cons_append, List.head?_cons, Option.some.injEq] at hc
        exact hc ▸ (htok t (List.mem_cons_self _ _)).1
    have h1 : parse_word (ws ++ tok ++ NUL :: rest) = (tok, NUL :: rest) := by
      unfold parse_word
      rw [List.append_assoc, skip_spaces_append ws _ hws hhead,
        copy_word_token tok NUL rest htok (Or.inr rfl)]
      simp [step_over]
    refine ⟨h1, ?_⟩
    rw [h1]
    simp [parse_word, skip_spaces, isspace_NUL, copy_word, step_over]
  · intro ws tok hinp hws htok
    subst hinp
    have hhead : ∀ c, tok.head? = some c → isspace c = false := by
      intro c hc
      cases tok with
      | nil => simp at hc
      | cons t ts =>
        simp only [List.head?_cons, Option.some.injEq] at hc
        exact hc ▸ (htok t (List.mem_cons_self _ _)).1
    have h1 : parse_word (ws ++ tok) = (tok, []) := by
      unfold parse_word
      rw [skip_spaces_append ws _ hws hhead, copy_word_token_end tok htok]
      rfl
    refine ⟨h1, ?_⟩
    rw [h1]
    rfl

/-- The call on `  GET /x` returns the token `GET` and the cursor right after the blank
that ended it. -/
theorem parse_word_cursor_witness :
    parse_word "  GET /x".toList = ("GET".toList, "/x".toList) :=
  (parse_word_cursor "  GET /x".toList).2.1 "  ".toList "GET".toList ' ' "/x".toList
    (by decide) (by decide) (by decide) (by decide) (by decide)

/-! ## The target token and the path queried -/

/-- Skipping whitespace commutes with cutting the buffer at its terminator. -/
theorem c_string_skip_spaces (inp : Bytes) :
    c_string (skip_spaces inp) = (c_string inp).dropWhile isspace := by
  rw [skip_spaces_eq]
  unfold c_string
  induction inp with
  | nil => rfl
  | cons c cs ih =>
    by_cases hs : isspace c = true
    · have hn : (c != NUL) = true := by simpa using isspace_ne_NUL c hs
      rw [List.dropWhile_cons_of_pos hs, List.takeWhile_cons, if_pos hn,
        List.dropWhile_cons_of_pos hs]
      exact ih
    · rw [List.dropWhile_cons_of_neg hs]
      by_cases hn : (c != NUL) = true
      · rw [List.takeWhile_cons, if_pos hn, List.dropWhile_cons_of_neg hs]
      · rw [List.takeWhile_cons, if_neg hn]
        rfl

/-- A leading whitespace byte does not change the first token. -/
theorem first_token_cons_space (c : Char) (s : Bytes) (hs : isspace c = true) :
    first_token (c :: s) = first_token s := by
  unfold first_token
  rw [List.dropWhile_cons_of_pos hs]

/-- After the copy loop and the step over its stopping byte, the next token is the one
that follows the rest of the current token. -/
theorem next_token_after_copy (l : Bytes) :
    first_token (c_string (step_over (copy_word l).2)) =
      first_token ((c_string l).dropWhile (fun c => !isspace c)) := by
  induction l with
  | nil => rfl
  | cons c cs ih =>
    by_cases hs : isspace c = true
    · have hn : (c != NUL) = true := by simpa using isspace_ne_NUL c hs
      have hcond : ¬ ((!isspace c && c != NUL) = true) := by simp [hs]
      have hstop : ¬ ((!isspace c) = true) := by simp [hs]
      rw [copy_word, if_neg hcond]
      simp only [step_over, hn, if_true]
      unfold c_string
      rw [List.takeWhile_cons, if_pos hn, List.dropWhile_cons]
      simp only [hs, Bool.not_true, Bool.false_eq_true, if_false]
      rw [first_token_cons_space c _ hs]
    · by_cases hn : (c != NUL) = true
      · have hcond : (!isspace c && c != NUL) = true := by simp [hs, hn]
        have hgo : (!isspace c) = true := by simp [hs]
        rw [copy_word, if_pos hcond]
        simp only
        rw [ih]
        unfold c_string
        rw [List.takeWhile_cons, if_pos hn, List.dropWhile_cons]
        simp only [hgo, if_true]
      · have hcond : ¬ ((!isspace c && c != NUL) = true) := by simp [hn]
        rw [copy_word, if_neg hcond]
        simp only [step_over, hn, if_false]
        unfold c_string
        rw [List.takeWhile_cons, if_neg hn]
        simp only [Bool.false_eq_true, if_false]
        rw [List.takeWhile_cons, if_neg hn]
        rfl

/-- The token the next `parse_word` call reads is the second token of the C string. -/
theorem parse_word_next (inp : Bytes) :
    first_token (c_string (parse_word inp).2) =
      first_token (rest_after_token (c_string inp)) := by
  unfold parse_word rest_after_token
  simp only
  rw [next_token_after_copy, c_string_skip_spaces]

/-- The target token is the second whitespace-delimited token of the received C string. -/
theorem request_target_eq (r : Recv) :
    request_target r = first_token (rest_after_token (c_string r.bytes)) := by
  unfold request_target
  rw [parse_word_fst, parse_word_next]

/-- The status code of a message is read off any start of at least twelve bytes. -/
theorem status_code_append (p x : Bytes) (h : 12 ≤ p.length) :
    status_code (p ++ x) = status_code p := by
  unfold status_code
  rw [List.drop_append_of_le_length (by omega), List.take_append_of_le_length]
  rw [List.length_drop]
  omega

/-- The status code of a 200 response. -/
theorem status_code_ok (data mimetype : Bytes) (hm : mimetype.length ≤ 900) :
    status_code (sent (send_ok_response data data.length mimetype)) = "200".toList := by
  simp only [send_ok_response, sent_send, sent_nil, List.append_nil]
  rw [ok_header_eq _ _ hm]
  simp only [List.append_assoc]
  rw [status_code_append _ _ (by decide)]
  decide

/-- The status code after a failed `stat` is 404 or 500. -/
theorem status_code_stat_failed (errno : Nat) :
    status_code (sent (stat_failed errno)) ≠ "303".toList := by
  unfold stat_failed
  split
  · rw [send_not_found_eq]; decide
  · rw [send_internal_error_eq]; decide

/-- The `index.html` fallback never answers with the 303. -/
theorem send_index_file_not_303 (fs : FileSystem) (name : Bytes) (tr : List Event)
    (h : send_index_file fs name = some tr) : status_code (sent tr) ≠ "303".toList := by
  unfold send_index_file at h
  split at h
  · simp only [Option.some.injEq] at h
    subst h
    rw [sent_stat]
    exact status_code_stat_failed _
  · simp only [Option.map_eq_some'] at h
    obtain ⟨es, hes, rfl⟩ := h
    rw [sent_stat]
    unfold send_file at hes
    split at hes
    · exact absurd hes (by simp)
    · rename_i data _
      simp only [Option.some.injEq] at hes
      subst hes
      rw [sent_fopen, status_code_ok _ _ (le_trans (get_mimetype_length_le _) (by norm_num))]
      decide

/-- The directory index never answers with the 303. -/
theorem send_directory_index_not_303 (fs : FileSystem) (name : Bytes) (tr : List Event)
    (h : send_directory_index fs name = some tr) : status_code (sent tr) ≠ "303".toList := by
  unfold send_directory_index at h
  split at h
  · exact absurd h (by simp)
  · split at h
    · exact absurd h (by simp)
    · split at h
      · exact absurd h (by simp)
      · split at h
        · exact absurd h (by simp)
        · rename_i b2 _
          simp only [Option.some.injEq] at h
          subst h
          rw [sent_opendir]
          unfold send_html
          rw [status_code_ok _ _ (by decide)]
          decide

/-- Truncation to twelve bytes or more keeps the status code. -/
theorem status_code_take (l : Bytes) (n : Nat) (h : 12 ≤ n) :
    status_code (l.take n) = status_code l := by
  unfold status_code
  rw [List.drop_take, List.take_take]
  congr 1
  omega

/-- The status code of the redirect. -/
theorem status_code_redirect (url : Bytes) :
    status_code (sent (send_redirect url)) = "303".toList := by
  simp only [send_redirect, sent_send, sent_nil, List.append_nil, snprintf]
  rw [status_code_take _ _ (by norm_num)]
  simp [status_code, HTTP_VERSION, STATUS_303]

/-! ## The calls of a run -/

/-- On a file that opens, the calls of `send_file` are its run. -/
theorem send_file_calls_eq (fs : FileSystem) (name : Bytes) (tr : List Event)
    (h : send_file fs name = some tr) : send_file_calls fs name = tr := by
  unfold send_file at h
  unfold send_file_calls
  split at h
  · exact absurd h (by simp)
  · rename_i data hd
    simp only [Option.some.injEq] at h
    exact h

/-- On a run that stays defined, the calls of `send_directory_index` are its run. -/
theorem send_directory_index_calls_eq (fs : FileSystem) (name : Bytes) (tr : List Event)
    (h : send_directory_index fs name = some tr) : send_directory_index_calls fs name = tr := by
  unfold send_directory_index at h
  unfold send_directory_index_calls
  split at h
  · exact absurd h (by simp)
  · rename_i b0 h0
    split at h
    · exact absurd h (by simp)
    · rename_i entries he
      split at h
      · exact absurd h (by simp)
      · rename_i b1 h1
        split at h
        · exact absurd h (by simp)
        · rename_i b2 h2
          simp only [Option.some.injEq] at h
          exact h

/-- On a run that stays defined, the calls of the `index.html` fallback are its run. -/
theorem send_index_file_calls_eq (fs : FileSystem) (name : Bytes) (tr : List Event)
    (h : send_index_file fs name = some tr) : send_index_file_calls fs name = tr := by
  unfold send_index_file at h
  unfold send_index_file_calls
  split at h
  · rename_i errno he
    simp only [Option.some.injEq] at h
    exact h
  · rename_i m hm
    simp only [Option.map_eq_some'] at h
    obtain ⟨es, hes, rfl⟩ := h
    rw [send_file_calls_eq fs _ es hes]

/-- On a run that stays defined, the calls of `case S_IFDIR` are its run. -/
theorem serve_directory_calls_eq (cfg : Config) (fs : FileSystem) (name : Bytes)
    (tr : List Event) (h : serve_directory cfg fs name = some tr) :
    serve_directory_calls cfg fs name = tr := by
  unfold serve_directory at h
  unfold serve_directory_calls
  split at h
  · exact absurd h (by simp)
  · rename_i c hc
    split at h
    · rename_i hne
      rw [if_pos hne]
      simp only [Option.some.injEq] at h
      exact h
    · rename_i hne
      rw [if_neg hne]
      split at h
      · rename_i hs
        rw [if_pos hs]
        exact send_directory_index_calls_eq fs name tr h
      · rename_i hs
        rw [if_neg hs]
        exact send_index_file_calls_eq fs name tr h

/-- On a run that stays defined, the calls of the `GET` branch are its run. -/
theorem serve_get_calls_eq (cfg : Config) (fs : FileSystem) (url : Bytes) (tr : List Event)
    (h : serve_get cfg fs url = some tr) : serve_get_calls cfg fs url = tr := by
  unfold serve_get at h
  unfold serve_get_calls
  split at h
  · rename_i errno he
    simp only [Option.some.injEq] at h
    exact h
  · rename_i m hm
    simp only [Option.map_eq_some'] at h
    obtain ⟨es, hes, rfl⟩ := h
    congr 1
    split at hes
    · rename_i hd
      rw [if_pos hd]
      exact serve_directory_calls_eq cfg fs _ es hes
    · rename_i hd
      rw [if_neg hd]
      split at hes
      · rename_i hr
        rw [if_pos hr]
        exact send_file_calls_eq fs _ es hes
      · rename_i hr
        rw [if_neg hr]
        simp only [Option.some.injEq] at hes
        exact hes

/-- On a run that stays defined, the calls of `handle_connection` are its run. -/
theorem handle_connection_calls_eq (cfg : Config) (fs : FileSystem) (r : Recv)
    (tr : List Event) (h : handle_connection cfg fs r = some tr) :
    handle_connection_calls cfg fs r = tr := by
  unfold handle_connection at h
  unfold handle_connection_calls
  split at h
  · rename_i h0
    rw [if_pos h0]
    simp only [Option.some.injEq] at h
    exact h
  · rename_i h0
    rw [if_neg h0]
    split at h
    · exact absurd h (by simp)
    · rename_i h1
      rw [if_neg h1]
      split at h
      · rename_i h2
        rw [if_pos h2]
        exact serve_get_calls_eq cfg fs _ tr h
      · rename_i h2
        rw [if_neg h2]
        simp only [Option.some.injEq] at h
        exact h

/-- The calls of a `GET` request that fits start with `stat` of `base_path` followed by
the target. -/
theorem handle_connection_calls_get (cfg : Config) (fs : FileSystem) (r : Recv)
    (hrecv : 0 < r.ret) (hfit : request_fits r = true)
    (hget : request_method r = "GET".toList) :
    handle_connection_calls cfg fs r = serve_get_calls cfg fs (request_target r) := by
  unfold handle_connection_calls
  rw [if_neg (not_le.mpr hrecv), hfit, if_pos hget]
  rfl

/-- The calls of `send_file` never hold the 303. -/
theorem send_file_calls_not_303 (fs : FileSystem) (name : Bytes) :
    status_code (sent (send_file_calls fs name)) ≠ "303".toList := by
  unfold send_file_calls
  split
  · rw [sent_fopen, sent_nil]; decide
  · rw [sent_fopen, status_code_ok _ _ (le_trans (get_mimetype_length_le _) (by norm_num))]
    decide

/-- The calls of the `index.html` fallback never hold the 303. -/
theorem send_index_file_calls_not_303 (fs : FileSystem) (name : Bytes) :
    status_code (sent (send_index_file_calls fs name)) ≠ "303".toList := by
  unfold send_index_file_calls
  split
  · rw [sent_stat]
    exact status_code_stat_failed _
  · rw [sent_stat]
    exact send_file_calls_not_303 fs _

/-- The calls of the directory index never hold the 303. -/
theorem send_directory_index_calls_not_303 (fs : FileSystem) (name : Bytes) :
    status_code (sent (send_directory_index_calls fs name)) ≠ "303".toList := by
  unfold send_directory_index_calls
  split
  · decide
  · split
    · rw [sent_opendir, sent_nil]; decide
    · split
      · rw [sent_opendir, sent_nil]; decide
      · split
        · rw [sent_opendir, sent_nil]; decide
        · rw [sent_opendir]
          unfold send_html
          rw [status_code_ok _ _ (by decide)]
          decide

/-- C16 (amended): for every `GET` request that fits the arrays of the handler, the target
is the second whitespace-delimited token of the received C string, byte for byte; the
first call the handler makes, also on a run that becomes undefined later, is `stat` of
`base_path` followed by that token; and for a directory the 303 is sent exactly when the
last byte of this concatenated path is not `/`. -/
theorem first_query_is_concatenation (cfg : Config) (fs : FileSystem) (r : Recv)
    (hrecv : 0 < r.ret) (hfit : request_fits r = true)
    (hget : request_method r = "GET".toList) :
    request_target r = first_token (rest_after_token (c_string r.bytes)) ∧
    (handle_connection_calls cfg fs r).head? =
      some (Event.stat (cfg.base_path ++ request_target r)) ∧
    (∀ tr, handle_connection cfg fs r = some tr → handle_connection_calls cfg fs r = tr) ∧
    (∀ st_mode c, fs.stat (cfg.base_path ++ request_target r) = StatResult.ok st_mode →
      st_mode &&& S_IFMT = S_IFDIR →
      (cfg.base_path ++ request_target r).getLast? = some c →
      (c ≠ '/' → handle_connection cfg fs r =
          some (Event.stat (cfg.base_path ++ request_target r) ::
            send_redirect (cfg.base_path ++ request_target r ++ "/".toList)) ∧
        status_code (sent (handle_connection_calls cfg fs r)) = "303".toList) ∧
      (c = '/' → status_code (sent (handle_connection_calls cfg fs r)) ≠ "303".toList)) := by
  refine ⟨request_target_eq r, ?_, handle_connection_calls_eq cfg fs r, ?_⟩
  · rw [handle_connection_calls_get cfg fs r hrecv hfit hget]
    unfold serve_get_calls
    split <;> rfl
  · intro st_mode c hstat hdir hlast
    have hrun : c ≠ '/' → handle_connection cfg fs r =
        some (Event.stat (cfg.base_path ++ request_target r) ::
          send_redirect (cfg.base_path ++ request_target r ++ "/".toList)) := by
      intro hc
      rw [handle_connection_get cfg fs r hrecv hfit hget]
      unfold serve_get
      rw [hstat]
      simp only [hdir, if_true, serve_directory, hlast]
      rw [if_pos hc]
      rfl
    constructor
    · intro hc
      refine ⟨hrun hc, ?_⟩
      rw [handle_connection_calls_eq cfg fs r _ (hrun hc), sent_stat]
      exact status_code_redirect _
    · intro hc
      subst hc
      rw [handle_connection_calls_get cfg fs r hrecv hfit hget]
      unfold serve_get_calls
      rw [hstat]
      simp only [hdir, if_true, serve_directory_calls, hlast, ne_eq, not_true_eq_false,
        if_false]
      rw [sent_stat]
      split
      · exact send_directory_index_calls_not_303 fs _
      · exact send_index_file_calls_not_303 fs _

/-- The request `GET /../etc/passwd` makes the handler query `/srv/../etc/passwd` first. -/
theorem first_query_is_concatenation_witness :
    (handle_connection_calls srv srv_fs (request "GET /../etc/passwd HTTP/1.1\r\n\r\n")).head? =
      some (Event.stat (srv.base_path ++
        request_target (request "GET /../etc/passwd HTTP/1.1\r\n\r\n"))) :=
  (first_query_is_concatenation srv srv_fs (request "GET /../etc/passwd HTTP/1.1\r\n\r\n")
    (by decide) (by decide) (by decide)).2.1

/-! ## Requests past the arrays and entities that cannot be opened -/

set_option maxRecDepth 100000 in
/-- Three `GET` requests for an existing regular file that do not get the response of the
unamended claim: `/secret.txt`, which `fopen` cannot open, gets no response; `c.txt` under
a path of 408 bytes, past `url[256]`, gets none either; and the file `html`, a name
without extension served from the empty base path, gets `Content-Type: text/html`. -/
theorem regular_file_without_claimed_200 :
    (srv_fs.stat (srv.base_path ++ request_target (request "GET /secret.txt HTTP/1.1\r\n\r\n")) =
        StatResult.ok 0o100600 ∧ 0o100600 &&& S_IFMT = S_IFREG ∧
      handle_connection srv srv_fs (request "GET /secret.txt HTTP/1.1\r\n\r\n") = none) ∧
    (request_method (request_line "GET".toList (long_dir ++ "c.txt".toList)) = "GET".toList ∧
      deep_fs.stat (srv.base_path ++
          request_target (request_line "GET".toList (long_dir ++ "c.txt".toList))) =
        StatResult.ok 0o100644 ∧ 0o100644 &&& S_IFMT = S_IFREG ∧
      deep_fs.fopen (srv.base_path ++
          request_target (request_line "GET".toList (long_dir ++ "c.txt".toList))) =
        some "hi".toList ∧
      handle_connection srv deep_fs (request_line "GET".toList (long_dir ++ "c.txt".toList)) =
        none) ∧
    ('.' ∉ "html".toList ∧
      handle_connection cwd cwd_fs (request "GET html HTTP/1.1\r\n\r\n") =
        some [Event.stat "html".toList, Event.fopen "html".toList,
          Event.send "HTTP/1.1 200 OK\r\nServer: Atto Http Server\r\nAccess-Control-Allow-Origin: *\r\nContent-Type: text/html\r\nContent-Length: 8\r\n\r\n".toList,
          Event.send "<p>x</p>".toList]) := by
  decide

set_option maxRecDepth 100000 in
/-- Two received requests whose method is not `GET` and that get no 405: one with the
method `UPDATEREDIRECTREF`, of 17 bytes, past `method[16]`, and a `PUT` with a target of
408 bytes, past `url[256]`; on both the run is undefined. -/
theorem long_token_without_405 :
    (first_token (c_string (request "UPDATEREDIRECTREF /sub HTTP/1.1\r\n\r\n").bytes) ≠
        "GET".toList ∧
      0 < (request "UPDATEREDIRECTREF /sub HTTP/1.1\r\n\r\n").ret ∧
      handle_connection srv srv_fs (request "UPDATEREDIRECTREF /sub HTTP/1.1\r\n\r\n") = none) ∧
    (first_token (c_string (request_line "PUT".toList (long_dir ++ "c.txt".toList)).bytes) ≠
        "GET".toList ∧
      0 < (request_line "PUT".toList (long_dir ++ "c.txt".toList)).ret ∧
      handle_connection srv deep_fs (request_line "PUT".toList (long_dir ++ "c.txt".toList)) =
        none) := by
  decide

set_option maxRecDepth 100000 in
/-- A `GET` request whose `stat` fails with `ENOENT` and that gets no 404: its target of
407 bytes is past `url[256]` and the run is undefined. -/
theorem long_target_without_404 :
    request_method (request_line "GET".toList (long_dir ++ "none".toList)) = "GET".toList ∧
    0 < (request_line "GET".toList (long_dir ++ "none".toList)).ret ∧
    deep_fs.stat (srv.base_path ++
        request_target (request_line "GET".toList (long_dir ++ "none".toList))) =
      StatResult.error ENOENT ∧
    handle_connection srv deep_fs (request_line "GET".toList (long_dir ++ "none".toList)) =
      none := by
  decide

set_option maxRecDepth 100000 in
/-- Two `GET` requests, with listing enabled, for a directory path ending with `/` that
get no listing: `/private/`, which `opendir` cannot open, and a directory under a path
of 403 bytes, past `url[256]`, whose page of four entries would fit `buffer[64000]`; on
both the run is undefined. -/
theorem directory_without_listing :
    (request_method (request "GET /private/ HTTP/1.1\r\n\r\n") = "GET".toList ∧
      (request_target (request "GET /private/ HTTP/1.1\r\n\r\n")).getLast? = some '/' ∧
      private_fs.stat (srv.base_path ++ request_target (request "GET /private/ HTTP/1.1\r\n\r\n")) =
        StatResult.ok 0o040311 ∧ 0o040311 &&& S_IFMT = S_IFDIR ∧ srv.show_listing ≠ 0 ∧
      handle_connection srv private_fs (request "GET /private/ HTTP/1.1\r\n\r\n") = none) ∧
    (request_method (request_line "GET".toList long_dir) = "GET".toList ∧
      (request_target (request_line "GET".toList long_dir)).getLast? = some '/' ∧
      deep_fs.stat (srv.base_path ++ request_target (request_line "GET".toList long_dir)) =
        StatResult.ok 0o040755 ∧ 0o040755 &&& S_IFMT = S_IFDIR ∧
      deep_fs.opendir (srv.base_path ++ request_target (request_line "GET".toList long_dir)) =
        some [⟨".".toList, 4⟩, ⟨"..".toList, 4⟩, ⟨"c.txt".toList, 8⟩, ⟨"tty".toList, 2⟩] ∧
      (listing_page (srv.base_path ++ request_target (request_line "GET".toList long_dir))
        [⟨".".toList, 4⟩, ⟨"..".toList, 4⟩, ⟨"c.txt".toList, 8⟩, ⟨"tty".toList, 2⟩]).length <
        64000 ∧
      handle_connection srv deep_fs (request_line "GET".toList long_dir) = none) := by
  decide

set_option maxRecDepth 100000 in
/-- A `GET` request for a character device that gets no 403: its target of 406 bytes is
past `url[256]` and the run is undefined. -/
theorem long_target_without_403 :
    request_method (request_line "GET".toList (long_dir ++ "tty".toList)) = "GET".toList ∧
    0 < (request_line "GET".toList (long_dir ++ "tty".toList)).ret ∧
    deep_fs.stat (srv.base_path ++
        request_target (request_line "GET".toList (long_dir ++ "tty".toList))) =
      StatResult.ok 0o020666 ∧
    0o020666 &&& S_IFMT ≠ S_IFDIR ∧ 0o020666 &&& S_IFMT ≠ S_IFREG ∧
    handle_connection srv deep_fs (request_line "GET".toList (long_dir ++ "tty".toList)) =
      none := by
  decide

set_option maxRecDepth 100000 in
/-- A `GET` request whose target of 408 bytes is past `url[256]`: the run is undefined
from the parse on and no call, so no `stat` of `base_path` followed by the token, is
recorded. -/
theorem long_target_not_queried :
    request_method (request_line "GET".toList (long_dir ++ "c.txt".toList)) = "GET".toList ∧
    0 < (request_line "GET".toList (long_dir ++ "c.txt".toList)).ret ∧
    256 ≤ (request_target (request_line "GET".toList (long_dir ++ "c.txt".toList))).length ∧
    handle_connection srv deep_fs (request_line "GET".toList (long_dir ++ "c.txt".toList)) =
      none ∧
    handle_connection_calls srv deep_fs
      (request_line "GET".toList (long_dir ++ "c.txt".toList)) = [] := by
  decide

end Attos
